import Mathlib

/-!
Verification development for the `robot-protocol` JSON command engine
(`robot-protocol/src/protocol.c` together with its public header
`protocol.h`).

The embedding models:
  * the cJSON document tree (`JValue`) and the subset of the cJSON API the
    protocol code uses (`cJSON_GetObjectItemCaseSensitive`, the `cJSON_Is*`
    type tests, `cJSON_Parse`);
  * the per-kind command evaluators (`handle_drive_command`,
    `handle_turn_command`, `handle_led_hsv_command`,
    `handle_immediate_command`, `handle_single_command_object`);
  * the three type-dispatched interpreters (`handle_command_type`,
    `handle_sequence_type`, `handle_config_type`) and the entry point
    `protocol_handle_command_json`.

Modelling conventions:
  * JSON numbers (`valuedouble`) are modelled as exact rationals `ℚ`;
    the binary rounding of IEEE doubles / the `(float)` narrowing cast are
    not modelled (they are the identity here).
  * C integer casts from `double` are modelled by truncation toward zero
    followed by a 2^w wrap (`i32OfQ`, `u32OfQ`, ...).  For values where the
    C cast is well defined this agrees with C; for out-of-range values the
    C cast is undefined behaviour and the wrap is a modelling choice.
  * the handler capability table is a record of booleans saying which
    callbacks are bound; the observable behaviour of a dispatch is the list
    of capability invocations (`InvEvent`) it performs, in order.
  * `esp_log_timestamp()` (the engine clock) is passed in explicitly as the
    `now` parameter of the evaluators.
  * the parser carries a call-depth fuel, large enough for any realistic
    document; cJSON itself enforces a nesting limit (CJSON_NESTING_LIMIT).
  * `malloc` failure inside the entry point is not modelled.
-/

/-- cJSON document tree: the result of `cJSON_Parse`. -/
inductive JValue where
  | null : JValue
  | jbool (b : Bool) : JValue
  | num (q : ℚ) : JValue
  | str (s : String) : JValue
  | arr (items : List JValue) : JValue
  | obj (fields : List (String × JValue)) : JValue

/-- First field with exactly matching (case-sensitive) name, as in cJSON. -/
def lookupField : List (String × JValue) → String → Option JValue
  | [], _ => none
  | (k, v) :: rest, key => if k = key then some v else lookupField rest key

/-- `cJSON_GetObjectItemCaseSensitive`: `none` models a NULL return
(also when the receiver is not an object, as in cJSON). -/
def cJSON_GetObjectItemCaseSensitive : JValue → String → Option JValue
  | JValue.obj fields, key => lookupField fields key
  | _, _ => none

def cJSON_IsString : Option JValue → Bool
  | some (JValue.str _) => true
  | _ => false

def cJSON_IsNumber : Option JValue → Bool
  | some (JValue.num _) => true
  | _ => false

def cJSON_IsObject : Option JValue → Bool
  | some (JValue.obj _) => true
  | _ => false

def cJSON_IsArray : Option JValue → Bool
  | some (JValue.arr _) => true
  | _ => false

def cJSON_IsBool : Option JValue → Bool
  | some (JValue.jbool _) => true
  | _ => false

def cJSON_IsTrue : Option JValue → Bool
  | some (JValue.jbool b) => b
  | _ => false

/-- `item->valuedouble` (read only after a `cJSON_IsNumber` check). -/
def numValue : Option JValue → ℚ
  | some (JValue.num q) => q
  | _ => 0

/-- `item->valuestring` (read only after a `cJSON_IsString` check). -/
def strValue : Option JValue → String
  | some (JValue.str s) => s
  | _ => ""

def JValue.isObj : JValue → Bool
  | JValue.obj _ => true
  | _ => false

/-- Truncation toward zero of a rational, the rounding of a C cast from
`double` to an integer type (`Int.tdiv` rounds toward zero and `q.den`
is positive). -/
def truncQ (q : ℚ) : Int := Int.tdiv q.num q.den

/-- `(uint32_t)d` (wrap is a modelling choice outside the defined range). -/
def u32OfQ (q : ℚ) : Nat := ((truncQ q) % (2 ^ 32 : Int)).toNat

/-- `(int32_t)d`. -/
def i32OfQ (q : ℚ) : Int := (truncQ q + 2 ^ 31) % 2 ^ 32 - 2 ^ 31

/-- `(uint16_t)d`. -/
def u16OfQ (q : ℚ) : Nat := ((truncQ q) % (2 ^ 16 : Int)).toNat

/-- `(uint8_t)d`. -/
def u8OfQ (q : ℚ) : Nat := ((truncQ q) % (2 ^ 8 : Int)).toNat

/-- Optional numeric field as `int32_t`, defaulting to 0 when absent or
non-numeric (the `cJSON_IsNumber(x) ? (int32_t)x->valuedouble : 0`
pattern). -/
def i32Or0 (c : JValue) (key : String) : Int :=
  let it := cJSON_GetObjectItemCaseSensitive c key
  if cJSON_IsNumber it then i32OfQ (numValue it) else 0

/-- Optional numeric field as `uint32_t`, defaulting to 0 when absent or
non-numeric. -/
def u32Or0 (c : JValue) (key : String) : Nat :=
  let it := cJSON_GetObjectItemCaseSensitive c key
  if cJSON_IsNumber it then u32OfQ (numValue it) else 0

/-- `protocol_drive_config_t` from `protocol.h`. -/
structure protocol_drive_config_t where
  wheel_track_mm : ℚ
  wheel_radius_mm : ℚ
  min_speed_mm_per_s : ℚ
  max_speed_mm_per_s : ℚ
  ticks_per_revolution : ℚ
  brake_on_stop : Bool
  enable_speed_control : Bool
  speed_kp : ℚ
  speed_ki : ℚ
  motor_gain_left : ℚ
  motor_gain_right : ℚ
  deriving DecidableEq, Repr

/-- `protocol_handlers_t`: which capability callbacks are bound (non-NULL).
The `wait` member exists in the header but is never invoked by
`protocol.c`. -/
structure Handlers where
  drive : Bool
  turn : Bool
  stop : Bool
  wait : Bool
  clear_queue : Bool
  set_led_hsv : Bool
  set_drive_config : Bool
  immediate : Bool
  deriving DecidableEq, Repr

/-- One capability invocation, with the arguments the C code passes. -/
inductive InvEvent where
  | drive (direction : String) (speed_mm_per_s : Int)
      (duration_ms : Nat) (distance_mm : Nat) : InvEvent
  | turn (radius_mm : Int) (angle_deg : Int) (speed_mm_per_s : Int)
      (duration_ms : Nat) : InvEvent
  | stop : InvEvent
  | clearQueue : InvEvent
  | setLedHsv (h : Nat) (s : Nat) (v : Nat) : InvEvent
  | setDriveConfig (cfg : protocol_drive_config_t) : InvEvent
  | immediate (left_frac right_frac : ℚ) (timeout_ms : Nat)
      (now_ms : Nat) : InvEvent
  deriving DecidableEq, Repr

/-- `handle_drive_command` (protocol.c lines 24-55). -/
def handle_drive_command (command : JValue) (hs : Handlers) :
    Bool × List InvEvent :=
  let direction := cJSON_GetObjectItemCaseSensitive command "direction"
  let speed := cJSON_GetObjectItemCaseSensitive command "speed"
  if ¬ cJSON_IsString direction ∨ ¬ cJSON_IsNumber speed then (false, [])
  else
    let speed_mm_per_s := i32OfQ (numValue speed)
    let duration_ms := u32Or0 command "duration"
    let distance_mm := u32Or0 command "distance"
    (true, if hs.drive
      then [InvEvent.drive (strValue direction) speed_mm_per_s duration_ms
              distance_mm]
      else [])

/-- `handle_turn_command` (protocol.c lines 57-95). -/
def handle_turn_command (command : JValue) (hs : Handlers) :
    Bool × List InvEvent :=
  let radius := cJSON_GetObjectItemCaseSensitive command "radius"
  let angle := cJSON_GetObjectItemCaseSensitive command "angle"
  if ¬ cJSON_IsNumber radius ∨ ¬ cJSON_IsNumber angle then (false, [])
  else
    let radius_mm := i32OfQ (numValue radius)
    let angle_deg := i32OfQ (numValue angle)
    let speed_mm_per_s := i32Or0 command "speed"
    let duration_ms := u32Or0 command "duration"
    if speed_mm_per_s ≤ 0 ∧ duration_ms = 0 then (false, [])
    else
      (true, if hs.turn
        then [InvEvent.turn radius_mm angle_deg speed_mm_per_s duration_ms]
        else [])

/-- `handle_led_hsv_command` (protocol.c lines 97-118). -/
def handle_led_hsv_command (command : JValue) (hs : Handlers) :
    Bool × List InvEvent :=
  let h := cJSON_GetObjectItemCaseSensitive command "h"
  let s := cJSON_GetObjectItemCaseSensitive command "s"
  let v := cJSON_GetObjectItemCaseSensitive command "v"
  if ¬ cJSON_IsNumber h then (false, [])
  else
    let hue := u16OfQ (numValue h)
    let sat := if cJSON_IsNumber s then u8OfQ (numValue s) else 255
    let val := if cJSON_IsNumber v then u8OfQ (numValue v) else 32
    (true, if hs.set_led_hsv then [InvEvent.setLedHsv hue sat val] else [])

/-- `handle_immediate_command` (protocol.c lines 120-148); `now` is the
value of `esp_log_timestamp()` at evaluation time. -/
def handle_immediate_command (command : JValue) (hs : Handlers)
    (now : Nat) : Bool × List InvEvent :=
  let left := cJSON_GetObjectItemCaseSensitive command "left"
  let right := cJSON_GetObjectItemCaseSensitive command "right"
  let timeout := cJSON_GetObjectItemCaseSensitive command "timeout_ms"
  if ¬ cJSON_IsNumber left ∨ ¬ cJSON_IsNumber right then (false, [])
  else
    let left_frac := numValue left
    let right_frac := numValue right
    let timeout_ms := if cJSON_IsNumber timeout
      then u32OfQ (numValue timeout) else 200
    (true, if hs.immediate
      then [InvEvent.immediate left_frac right_frac timeout_ms now]
      else [])

/-- `handle_single_command_object` (protocol.c lines 150-202). -/
def handle_single_command_object (command : JValue) (hs : Handlers)
    (now : Nat) : Bool × List InvEvent :=
  let kind := cJSON_GetObjectItemCaseSensitive command "kind"
  if ¬ cJSON_IsString kind then (false, [])
  else if strValue kind = "drive" then handle_drive_command command hs
  else if strValue kind = "turn" then handle_turn_command command hs
  else if strValue kind = "led_hsv" then handle_led_hsv_command command hs
  else if strValue kind = "immediate" then
    handle_immediate_command command hs now
  else if strValue kind = "stop" then
    (true, if hs.stop then [InvEvent.stop] else [])
  else if strValue kind = "wait" then (true, [])
  else if strValue kind = "pause" then (true, [])
  else if strValue kind = "resume" then (true, [])
  else if strValue kind = "clear_queue" then
    (true, if hs.clear_queue then [InvEvent.clearQueue] else [])
  else (false, [])

/-- The `cJSON_ArrayForEach` loop body of `handle_sequence_type`: each
object step goes through `handle_single_command_object`, its boolean
result is discarded; non-object steps are skipped. -/
def seqStepsRun : List JValue → Handlers → Nat → List InvEvent
  | [], _, _ => []
  | s :: rest, hs, now =>
    (match s with
     | JValue.obj fields =>
       (handle_single_command_object (JValue.obj fields) hs now).2
     | _ => []) ++ seqStepsRun rest hs now

/-- `handle_sequence_type` (protocol.c lines 204-220). -/
def handle_sequence_type (root : JValue) (hs : Handlers) (now : Nat) :
    List InvEvent :=
  let steps := cJSON_GetObjectItemCaseSensitive root "steps"
  if ¬ cJSON_IsArray steps then []
  else
    match steps with
    | some (JValue.arr items) => seqStepsRun items hs now
    | _ => []

/-- Extraction of one optional numeric `DriveConfig` field: a zeroed
struct member conditionally overwritten when the field is present and
numeric. -/
def numOr0 (d : JValue) (key : String) : ℚ :=
  let it := cJSON_GetObjectItemCaseSensitive d key
  if cJSON_IsNumber it then numValue it else 0

/-- Extraction of one optional boolean `DriveConfig` field. -/
def boolOrFalse (d : JValue) (key : String) : Bool :=
  let it := cJSON_GetObjectItemCaseSensitive d key
  if cJSON_IsBool it then cJSON_IsTrue it else false

/-- The snapshot built by `handle_config_type` from the `drive` object. -/
def driveCfgOf (d : JValue) : protocol_drive_config_t :=
  { wheel_track_mm := numOr0 d "wheel_track_mm"
    wheel_radius_mm := numOr0 d "wheel_radius_mm"
    min_speed_mm_per_s := numOr0 d "min_speed_mm_per_s"
    max_speed_mm_per_s := numOr0 d "max_speed_mm_per_s"
    ticks_per_revolution := numOr0 d "ticks_per_revolution"
    brake_on_stop := boolOrFalse d "brake_on_stop"
    enable_speed_control := boolOrFalse d "enable_speed_control"
    speed_kp := numOr0 d "speed_kp"
    speed_ki := numOr0 d "speed_ki"
    motor_gain_left := numOr0 d "motor_gain_left"
    motor_gain_right := numOr0 d "motor_gain_right" }

/-- `handle_config_type` (protocol.c lines 221-294). -/
def handle_config_type (root : JValue) (hs : Handlers) : List InvEvent :=
  match cJSON_GetObjectItemCaseSensitive root "drive" with
  | some (JValue.obj fields) =>
    let cfg := driveCfgOf (JValue.obj fields)
    if hs.set_drive_config then [InvEvent.setDriveConfig cfg] else []
  | _ => []

/-- `handle_command_type` (protocol.c lines 296-303). -/
def handle_command_type (root : JValue) (hs : Handlers) (now : Nat) :
    List InvEvent :=
  let command := cJSON_GetObjectItemCaseSensitive root "command"
  match command with
  | some (JValue.obj fields) =>
    (handle_single_command_object (JValue.obj fields) hs now).2
  | _ => []

/-- Observable outcome of one call of the dispatch entry point. -/
inductive Outcome where
  | noInput : Outcome
  | parseError : Outcome
  | missingType : Outcome
  | unknownType : Outcome
  | handledOk : Outcome
  deriving DecidableEq, Repr

/-- The router: the `type`-discriminated dispatch done by
`protocol_handle_command_json` / `handle_command`
(protocol.c lines 305-317 and 341-349). -/
def routeMessage (root : JValue) (hs : Handlers) (now : Nat) :
    Outcome × List InvEvent :=
  let t := cJSON_GetObjectItemCaseSensitive root "type"
  if ¬ cJSON_IsString t then (Outcome.missingType, [])
  else if strValue t = "command" then
    (Outcome.handledOk, handle_command_type root hs now)
  else if strValue t = "sequence" then
    (Outcome.handledOk, handle_sequence_type root hs now)
  else if strValue t = "config" then
    (Outcome.handledOk, handle_config_type root hs)
  else (Outcome.unknownType, [])

/-- A concrete handler table with every capability bound (used in
witnesses and counterexamples). -/
def allBound : Handlers :=
  { drive := true, turn := true, stop := true, wait := true,
    clear_queue := true, set_led_hsv := true, set_drive_config := true,
    immediate := true }

/-- Spec-side reading of one optional numeric `DriveConfig` field
(§4.5: "present-and-correctly-typed values are copied; anything else
leaves that field at its type's zero value"). -/
def rawNumOr0 (fields : List (String × JValue)) (key : String) : ℚ :=
  match lookupField fields key with
  | some (JValue.num q) => q
  | _ => 0

/-- Spec-side reading of one optional boolean `DriveConfig` field. -/
def rawBoolOrFalse (fields : List (String × JValue)) (key : String) :
    Bool :=
  match lookupField fields key with
  | some (JValue.jbool b) => b
  | _ => false

/-- The complete snapshot §4.5 describes: each of the eleven fields is
independently taken from the `drive` object when present and correctly
typed, otherwise left at its type's zero value. -/
def driveCfgSpec (fields : List (String × JValue)) :
    protocol_drive_config_t :=
  { wheel_track_mm := rawNumOr0 fields "wheel_track_mm"
    wheel_radius_mm := rawNumOr0 fields "wheel_radius_mm"
    min_speed_mm_per_s := rawNumOr0 fields "min_speed_mm_per_s"
    max_speed_mm_per_s := rawNumOr0 fields "max_speed_mm_per_s"
    ticks_per_revolution := rawNumOr0 fields "ticks_per_revolution"
    brake_on_stop := rawBoolOrFalse fields "brake_on_stop"
    enable_speed_control := rawBoolOrFalse fields "enable_speed_control"
    speed_kp := rawNumOr0 fields "speed_kp"
    speed_ki := rawNumOr0 fields "speed_ki"
    motor_gain_left := rawNumOr0 fields "motor_gain_left"
    motor_gain_right := rawNumOr0 fields "motor_gain_right" }

/-! Concrete documents used by witnesses and counterexamples. -/

/-- A bare `stop` step. -/
def stopStep : JValue := JValue.obj [("kind", JValue.str "stop")]

/-- A step with an unknown `kind`. -/
def badKindStep : JValue := JValue.obj [("kind", JValue.str "warp")]

/-- A sequence step that is a full message carrying its own `type`. -/
def typedStep : JValue :=
  JValue.obj [("type", JValue.str "command"),
    ("command", JValue.obj [("kind", JValue.str "stop")])]

/-- `repeat:2` sequence of one `stop` step. -/
def seqRepeat2 : JValue :=
  JValue.obj [("type", JValue.str "sequence"), ("repeat", JValue.num 2),
    ("steps", JValue.arr [stopStep])]

/-- `repeat:0` sequence of one `stop` step. -/
def seqRepeat0 : JValue :=
  JValue.obj [("type", JValue.str "sequence"), ("repeat", JValue.num 0),
    ("steps", JValue.arr [stopStep])]

/-- `repeat:-5` sequence of one `stop` step. -/
def seqRepeatNeg5 : JValue :=
  JValue.obj [("type", JValue.str "sequence"),
    ("repeat", JValue.num (-5)), ("steps", JValue.arr [stopStep])]

/-- A sequence whose only step is a full message with its own `type`. -/
def seqTypedOnly : JValue :=
  JValue.obj [("type", JValue.str "sequence"),
    ("steps", JValue.arr [typedStep])]

/-- A sequence with a bare step followed by a typed step. -/
def seqBareThenTyped : JValue :=
  JValue.obj [("type", JValue.str "sequence"),
    ("steps", JValue.arr [stopStep, typedStep])]

/-- A sequence with a failing (unknown-kind) step before a `stop` step. -/
def seqBadThenStop : JValue :=
  JValue.obj [("type", JValue.str "sequence"),
    ("steps", JValue.arr [badKindStep, stopStep])]

/-- Turn command with `speed=0, duration=0`. -/
def turnSpeed0Dur0 : JValue :=
  JValue.obj [("kind", JValue.str "turn"), ("radius", JValue.num 200),
    ("angle", JValue.num 90), ("speed", JValue.num 0),
    ("duration", JValue.num 0)]

/-- Turn command with `speed=0, duration=500`. -/
def turnSpeed0Dur500 : JValue :=
  JValue.obj [("kind", JValue.str "turn"), ("radius", JValue.num 200),
    ("angle", JValue.num 90), ("speed", JValue.num 0),
    ("duration", JValue.num 500)]

/-- Immediate command carrying a `now_ms` field of 5. -/
def immNow5 : JValue :=
  JValue.obj [("kind", JValue.str "immediate"), ("left", JValue.num 1),
    ("right", JValue.num 0), ("now_ms", JValue.num 5)]

/-- The same immediate command with `now_ms` 99 instead. -/
def immNow99 : JValue :=
  JValue.obj [("kind", JValue.str "immediate"), ("left", JValue.num 1),
    ("right", JValue.num 0), ("now_ms", JValue.num 99)]

/-- Scenario C config document's `drive` object fields. -/
def cfgFieldsC : List (String × JValue) :=
  [("wheel_track_mm", JValue.num 120),
   ("enable_speed_control", JValue.jbool true)]

/-- Scenario C config document. -/
def cfgDocC : JValue :=
  JValue.obj [("type", JValue.str "config"),
    ("drive", JValue.obj cfgFieldsC)]

/-- Scenario A drive command object. -/
def driveCmdA : JValue :=
  JValue.obj [("kind", JValue.str "drive"),
    ("direction", JValue.str "forward"), ("speed", JValue.num 150),
    ("distance", JValue.num 1000)]

/-! ### The cJSON parser

Bytes are modelled as `Char`s (one char per byte; all inputs of interest
are ASCII).  cJSON is used with its default options: UTF-8 BOM and
leading whitespace skipped, no null-terminated requirement (trailing
bytes after the first value are ignored). -/

/-- cJSON's `buffer_skip_whitespace`: bytes with code ≤ 32 are skipped. -/
def skipWs : List Char → List Char
  | c :: rest => if c.toNat ≤ 32 then skipWs rest else c :: rest
  | [] => []

/-- cJSON's `skip_utf8_bom`. -/
def skip_utf8_bom : List Char → List Char
  | a :: b :: c :: rest =>
    if a = '\xEF' ∧ b = '\xBB' ∧ c = '\xBF' then rest
    else a :: b :: c :: rest
  | s => s

/-- `'0'-'9'`, the byte-range check cJSON performs. -/
def isDig (c : Char) : Bool := decide (48 ≤ c.toNat ∧ c.toNat ≤ 57)

/-- Longest digit prefix and the remainder. -/
def spanDigits : List Char → List Char × List Char
  | [] => ([], [])
  | c :: rest =>
    if isDig c then
      let p := spanDigits rest
      (c :: p.1, p.2)
    else ([], c :: rest)

/-- Value of a digit string, accumulator style. -/
def digitsValAcc : Nat → List Char → Nat
  | acc, [] => acc
  | acc, c :: rest => digitsValAcc (acc * 10 + (c.toNat - 48)) rest

/-- Value of a digit string. -/
def digitsVal (ds : List Char) : Nat := digitsValAcc 0 ds

/-- One-character string escapes of cJSON's `parse_string`. -/
def escChar : Char → Option Char
  | '"' => some '"'
  | '\\' => some '\\'
  | '/' => some '/'
  | 'b' => some (Char.ofNat 8)
  | 'f' => some (Char.ofNat 12)
  | 'n' => some '\n'
  | 'r' => some (Char.ofNat 13)
  | 't' => some '\t'
  | _ => none

/-- Hex digit value (cJSON `parse_hex4` accepts both cases). -/
def hexVal : Char → Option Nat
  | c =>
    if 48 ≤ c.toNat ∧ c.toNat ≤ 57 then some (c.toNat - 48)
    else if 65 ≤ c.toNat ∧ c.toNat ≤ 70 then some (c.toNat - 55)
    else if 97 ≤ c.toNat ∧ c.toNat ≤ 102 then some (c.toNat - 87)
    else none

/-- Decode one escape sequence of cJSON's `parse_string` (the bytes
after the backslash): one-character escapes, or `\uXXXX` with UTF-16
surrogate pairs; a bad escape or an unpaired surrogate fails. -/
def unescape : List Char → Option (Char × List Char)
  | 'u' :: h1 :: h2 :: h3 :: h4 :: r3 =>
    match hexVal h1, hexVal h2, hexVal h3, hexVal h4 with
    | some a, some b, some c2, some d2 =>
      let cp := ((a * 16 + b) * 16 + c2) * 16 + d2
      if 0xDC00 ≤ cp ∧ cp ≤ 0xDFFF then none
      else if 0xD800 ≤ cp ∧ cp ≤ 0xDBFF then
        match r3 with
        | '\\' :: 'u' :: h5 :: h6 :: h7 :: h8 :: r4 =>
          match hexVal h5, hexVal h6, hexVal h7, hexVal h8 with
          | some a2, some b2, some c3, some d3 =>
            let cp2 := ((a2 * 16 + b2) * 16 + c3) * 16 + d3
            if 0xDC00 ≤ cp2 ∧ cp2 ≤ 0xDFFF then
              some (Char.ofNat (0x10000 + (cp - 0xD800) * 0x400 +
                (cp2 - 0xDC00)), r4)
            else none
          | _, _, _, _ => none
        | _ => none
      else some (Char.ofNat cp, r3)
    | _, _, _, _ => none
  | e :: rest2 =>
    match escChar e with
    | some ec => some (ec, rest2)
    | none => none
  | [] => none

/-- Body of cJSON's `parse_string`, after the opening quote: plain bytes
are copied verbatim (control bytes included), `\` escapes are decoded by
`unescape`, an unterminated string or a bad escape fails.  The fuel only
bounds the iteration count; callers pass more than the remaining input
length, which the loop cannot exceed. -/
def parseStringBody : Nat → List Char → Option (List Char × List Char)
  | 0, _ => none
  | _, [] => none
  | fuel + 1, c :: rest =>
    if c = '"' then some ([], rest)
    else if c = '\\' then
      match unescape rest with
      | some (ec, rest2) =>
        match parseStringBody fuel rest2 with
        | some (s, r) => some (ec :: s, r)
        | none => none
      | none => none
    else
      match parseStringBody fuel rest with
      | some (s, r) => some (c :: s, r)
      | none => none

/-- The body of cJSON's `parse_number` after the optional sign:
integer digits, optional fraction, optional exponent (an `e`/`E` not
followed by digits is left unconsumed); at least one integer or
fraction digit is required.  The exact rational value is returned where
cJSON stores the nearest binary `double`. -/
def parseNumberCore (sgnv : Int) (s1 : List Char) :
    Option (ℚ × List Char) :=
  let ip := spanDigits s1
  let fp : List Char × List Char :=
    match ip.2 with
    | c :: r => if c = '.' then spanDigits r else ([], ip.2)
    | [] => ([], [])
  if ip.1.isEmpty ∧ fp.1.isEmpty then none
  else
    let mantissa : Int :=
      sgnv * ((digitsVal ip.1 : Int) * 10 ^ fp.1.length +
        (digitsVal fp.1 : Int))
    match fp.2 with
    | c :: r1 =>
      if c = 'e' ∨ c = 'E' then
        let esgn : Int × List Char :=
          match r1 with
          | c2 :: r2 =>
            if c2 = '+' then (1, r2)
            else if c2 = '-' then (-1, r2) else (1, r1)
          | [] => (1, [])
        let ed := spanDigits esgn.2
        if ed.1.isEmpty then some (mkRat mantissa (10 ^ fp.1.length), fp.2)
        else
          let e10 : Int := esgn.1 * (digitsVal ed.1 : Int) -
            (fp.1.length : Int)
          if 0 ≤ e10 then some (mkRat (mantissa * 10 ^ e10.toNat) 1, ed.2)
          else some (mkRat mantissa (10 ^ (-e10).toNat), ed.2)
      else some (mkRat mantissa (10 ^ fp.1.length), fp.2)
    | [] => some (mkRat mantissa (10 ^ fp.1.length), [])

/-- cJSON's `parse_number`: the `strtod` prefix parse restricted to the
bytes cJSON copies (digits, `+`, `-`, `e`, `E`, `.`): an optional sign
followed by `parseNumberCore`. -/
def parseNumber : List Char → Option (ℚ × List Char)
  | c :: r =>
    if c = '+' then parseNumberCore 1 r
    else if c = '-' then parseNumberCore (-1) r
    else parseNumberCore 1 (c :: r)
  | [] => parseNumberCore 1 []

/-- cJSON's `parse_array` element loop: `pv` parses one element (the
value parser at the inner nesting depth), the loop's own fuel only
bounds the iteration count and is instantiated with more than the
remaining input length, which an element loop can never exceed. -/
def itemsLoop (pv : List Char → Option (JValue × List Char)) :
    Nat → List Char → Option (List JValue × List Char)
  | 0, _ => none
  | fuel + 1, s =>
    match pv s with
    | none => none
    | some (v, r) =>
      match skipWs r with
      | c :: r2 =>
        if c = ',' then
          match itemsLoop pv fuel (skipWs r2) with
          | some (vs, r3) => some (v :: vs, r3)
          | none => none
        else if c = ']' then some ([v], r2)
        else none
      | [] => none

/-- cJSON's `parse_object` member loop: a string key, `:`, a value,
then `,` or `}`. -/
def fieldsLoop (pv : List Char → Option (JValue × List Char)) :
    Nat → List Char → Option (List (String × JValue) × List Char)
  | 0, _ => none
  | fuel + 1, s =>
    match s with
    | c :: rest =>
      if c = '"' then
        match parseStringBody (rest.length + 1) rest with
        | none => none
        | some (k, r1) =>
          match skipWs r1 with
          | c2 :: r2 =>
            if c2 = ':' then
              match pv (skipWs r2) with
              | none => none
              | some (v, r3) =>
                match skipWs r3 with
                | c3 :: r4 =>
                  if c3 = ',' then
                    match fieldsLoop pv fuel (skipWs r4) with
                    | some (fs, r5) => some ((String.mk k, v) :: fs, r5)
                    | none => none
                  else if c3 = '}' then some ([(String.mk k, v)], r4)
                  else none
                | [] => none
            else none
          | [] => none
      else none
    | [] => none

/-- cJSON's `parse_value`: prefix literals `null`/`true`/`false`, then
string, array, object, or a number when the first byte is `-` or a
digit; anything else fails.  `fuel` bounds the nesting depth, as
cJSON's `CJSON_NESTING_LIMIT` does. -/
def parseValue : Nat → List Char → Option (JValue × List Char)
  | 0, _ => none
  | fuel + 1, s =>
    match s with
    | [] => none
    | c :: rest =>
      if c = 'n' then
        match rest with
        | 'u' :: 'l' :: 'l' :: r => some (JValue.null, r)
        | _ => none
      else if c = 't' then
        match rest with
        | 'r' :: 'u' :: 'e' :: r => some (JValue.jbool true, r)
        | _ => none
      else if c = 'f' then
        match rest with
        | 'a' :: 'l' :: 's' :: 'e' :: r => some (JValue.jbool false, r)
        | _ => none
      else if c = '"' then
        match parseStringBody (rest.length + 1) rest with
        | some (cs, r) => some (JValue.str (String.mk cs), r)
        | none => none
      else if c = '[' then
        match skipWs rest with
        | ']' :: r => some (JValue.arr [], r)
        | s1 =>
          match itemsLoop (fun s2 => parseValue fuel s2)
              (s1.length + 1) s1 with
          | some (vs, r) => some (JValue.arr vs, r)
          | none => none
      else if c = '{' then
        match skipWs rest with
        | '}' :: r => some (JValue.obj [], r)
        | s1 =>
          match fieldsLoop (fun s2 => parseValue fuel s2)
              (s1.length + 1) s1 with
          | some (fs, r) => some (JValue.obj fs, r)
          | none => none
      else if c = '-' ∨ isDig c = true then
        match parseNumber (c :: rest) with
        | some (q, r) => some (JValue.num q, r)
        | none => none
      else none

/-- The nesting-depth fuel at the entry, cJSON's
`CJSON_NESTING_LIMIT + 1`. -/
def parseFuel : Nat := 1001

/-- `cJSON_Parse` with default options. -/
def cJSON_Parse (s : List Char) : Option JValue :=
  match parseValue parseFuel (skipWs (skip_utf8_bom s)) with
  | some (v, _) => some v
  | none => none

/-- The bytes `cJSON_Parse` actually sees: `protocol_handle_command_json`
copies the first `len` bytes and null-terminates; parsing as a C string
stops at the first NUL byte. -/
def prepBuffer (bytes : List Char) (len : Nat) : List Char :=
  (bytes.take len).takeWhile (fun c => c ≠ Char.ofNat 0)

/-- `protocol_handle_command_json` (protocol.c lines 319-350); `none`
for `data` models a NULL pointer.  `malloc` failure is not modelled. -/
def protocol_handle_command_json (data : Option (List Char)) (len : Nat)
    (hs : Handlers) (now : Nat) : Outcome × List InvEvent :=
  match data with
  | none => (Outcome.noInput, [])
  | some bytes =>
    if len = 0 then (Outcome.noInput, [])
    else
      match cJSON_Parse (prepBuffer bytes len) with
      | none => (Outcome.parseError, [])
      | some root => routeMessage root hs now

/-! ### The immediate-command encoder -/

/-- Decimal digits of a natural number, most significant first. -/
def natDigits (n : Nat) : List Char :=
  if n < 10 then [Char.ofNat (48 + n)]
  else natDigits (n / 10) ++ [Char.ofNat (48 + n % 10)]
termination_by n
decreasing_by omega

/-- Three zero-padded decimal digits of `k < 1000`. -/
def pad3 (k : Nat) : List Char :=
  [Char.ofNat (48 + k / 100), Char.ofNat (48 + k / 10 % 10),
   Char.ofNat (48 + k % 10)]

/-- Rounding to the nearest integer, halves up: the rounding of `%.3f`
applied to the scaled value. -/
def roundQ (x : ℚ) : Int := ⌊x + 1 / 2⌋

/-- `%.3f`: sign, integer digits, `.`, three fraction digits. -/
def fmt3 (q : ℚ) : List Char :=
  (if roundQ (q * 1000) < 0 then ['-'] else []) ++
    (natDigits ((roundQ (q * 1000)).natAbs / 1000) ++
      ('.' :: pad3 ((roundQ (q * 1000)).natAbs % 1000)))

/-- The exact rational a decoder recovers from the `%.3f` rendering. -/
def fmt3Val (q : ℚ) : ℚ := mkRat (roundQ (q * 1000)) 1000

/-- Modelled from the spec: the implementation of
`protocol_generate_immediate_command` is not under `src/` (only its
declaration and documentation in `protocol.h`); per §4.6 and the
header's documented example it emits a `"command"` message with kind
`"immediate"`, fixed field order left, right, timeout_ms, now_ms,
floats rendered with 3 decimal digits (`%.3f`) and integers in decimal.
The destination buffer is assumed large enough (the truncated-output
case is not modelled). -/
def protocol_generate_immediate_command (left right : ℚ)
    (timeout_ms now_ms : Nat) : List Char :=
  "\x7b\"type\":\"command\",\"command\":\x7b\"kind\":\"immediate\",\"left\":".data ++
    (fmt3 left ++ (",\"right\":".data ++ (fmt3 right ++
      (",\"timeout_ms\":".data ++ (natDigits timeout_ms ++
        (",\"now_ms\":".data ++ (natDigits now_ms ++ "\x7d\x7d".data)))))))

/-- The text of the encoder output after the inner opening brace: the
four fixed keys and the rendered values, closing with both braces. -/
def immediateInnerText (lq rq : ℚ) (t n : Nat) : List Char :=
  '"' :: 'k' :: 'i' :: 'n' :: 'd' :: '"' :: ':' ::
    '"' :: 'i' :: 'm' :: 'm' :: 'e' :: 'd' :: 'i' :: 'a' :: 't' :: 'e' ::
    '"' :: ',' ::
    '"' :: 'l' :: 'e' :: 'f' :: 't' :: '"' :: ':' ::
    (fmt3 lq ++ (',' ::
      '"' :: 'r' :: 'i' :: 'g' :: 'h' :: 't' :: '"' :: ':' ::
      (fmt3 rq ++ (',' ::
        '"' :: 't' :: 'i' :: 'm' :: 'e' :: 'o' :: 'u' :: 't' :: '_' ::
        'm' :: 's' :: '"' :: ':' ::
        (natDigits t ++ (',' ::
          '"' :: 'n' :: 'o' :: 'w' :: '_' :: 'm' :: 's' :: '"' :: ':' ::
          (natDigits n ++ ['\x7d', '\x7d'])))))))

/-- The document tree the decoder recovers from the encoder output. -/
def immediateInnerFields (lq rq : ℚ) (t n : Nat) :
    List (String × JValue) :=
  [("kind", JValue.str "immediate"), ("left", JValue.num (fmt3Val lq)),
   ("right", JValue.num (fmt3Val rq)), ("timeout_ms", JValue.num (t : ℚ)),
   ("now_ms", JValue.num (n : ℚ))]

/-- Truncated input: an unterminated `command` message header. -/
def truncatedInput : List Char := "\x7b\"type\":\"command\"".data

/-- A syntactically valid document whose root is not an object. -/
def nonObjectInput : List Char := "7".data

/-! ### Helper lemmas -/

theorem seqStepsRun_append (a b : List JValue) (hs : Handlers)
    (now : Nat) :
    seqStepsRun (a ++ b) hs now =
      seqStepsRun a hs now ++ seqStepsRun b hs now := by
  induction a with
  | nil => rfl
  | cons s rest ih => simp [seqStepsRun, ih, List.append_assoc]

theorem handle_drive_shape (c : JValue) (hs : Handlers) :
    handle_drive_command c hs = (false, []) ∨
      (handle_drive_command c hs).1 = true := by
  unfold handle_drive_command
  dsimp only
  split
  · exact Or.inl rfl
  · exact Or.inr rfl

theorem handle_turn_shape (c : JValue) (hs : Handlers) :
    handle_turn_command c hs = (false, []) ∨
      (handle_turn_command c hs).1 = true := by
  unfold handle_turn_command
  dsimp only
  split
  · exact Or.inl rfl
  · split
    · exact Or.inl rfl
    · exact Or.inr rfl

theorem handle_led_hsv_shape (c : JValue) (hs : Handlers) :
    handle_led_hsv_command c hs = (false, []) ∨
      (handle_led_hsv_command c hs).1 = true := by
  unfold handle_led_hsv_command
  dsimp only
  split
  · exact Or.inl rfl
  · exact Or.inr rfl

theorem handle_immediate_shape (c : JValue) (hs : Handlers) (now : Nat) :
    handle_immediate_command c hs now = (false, []) ∨
      (handle_immediate_command c hs now).1 = true := by
  unfold handle_immediate_command
  dsimp only
  split
  · exact Or.inl rfl
  · exact Or.inr rfl

set_option maxHeartbeats 2000000 in
/-- A rejected command performs no invocation: every `false` return in
`handle_single_command_object` happens before any handler call. -/
theorem handle_single_fail (c : JValue) (hs : Handlers) (now : Nat)
    (h : (handle_single_command_object c hs now).1 = false) :
    (handle_single_command_object c hs now).2 = [] := by
  have shape : handle_single_command_object c hs now = (false, []) ∨
      (handle_single_command_object c hs now).1 = true := by
    unfold handle_single_command_object
    dsimp only
    split
    · exact Or.inl rfl
    · split
      · exact handle_drive_shape c hs
      · split
        · exact handle_turn_shape c hs
        · split
          · exact handle_led_hsv_shape c hs
          · split
            · exact handle_immediate_shape c hs now
            · split
              · exact Or.inr rfl
              · split
                · exact Or.inr rfl
                · split
                  · exact Or.inr rfl
                  · split
                    · exact Or.inr rfl
                    · split
                      · exact Or.inr rfl
                      · exact Or.inl rfl
  rcases shape with hsh | hsh
  · rw [hsh]
  · rw [h] at hsh
    exact absurd hsh (by simp)

theorem handle_sequence_type_eq (root : JValue) (hs : Handlers)
    (now : Nat) (l : List JValue)
    (h : cJSON_GetObjectItemCaseSensitive root "steps" =
      some (JValue.arr l)) :
    handle_sequence_type root hs now = seqStepsRun l hs now := by
  unfold handle_sequence_type
  dsimp only
  rw [h]
  simp [cJSON_IsArray]

theorem seqStepsRun_cons_obj (fields : List (String × JValue))
    (rest : List JValue) (hs : Handlers) (now : Nat) :
    seqStepsRun (JValue.obj fields :: rest) hs now =
      (handle_single_command_object (JValue.obj fields) hs now).2 ++
        seqStepsRun rest hs now := rfl

theorem seqStepsRun_cons_nonobj (s : JValue) (rest : List JValue)
    (hs : Handlers) (now : Nat) (h : s.isObj = false) :
    seqStepsRun (s :: rest) hs now = seqStepsRun rest hs now := by
  cases s <;> simp_all [seqStepsRun, JValue.isObj]

/-- C1: the claim as stated fails on the code: `handle_sequence_type`
never reads a `repeat` field, so a sequence with `repeat = 2` executes
its single `stop` step once, not twice. -/
theorem c1_repeat_two_executes_once :
    handle_sequence_type seqRepeat2 allBound 0 = [InvEvent.stop] ∧
    [InvEvent.stop] ≠ [InvEvent.stop, InvEvent.stop] :=
  ⟨by decide, by decide⟩

/-- C1 (amended): the steps list is executed exactly once, in original
order, regardless of any `repeat` field: the invocations of a sequence
message depend only on its `steps` field, and equal the single in-order
pass `seqStepsRun` over the steps (so `repeat` omitted, `0` or `-5` all
execute the step list exactly once). -/
theorem c1_sequence_single_pass (root root2 : JValue) (hs : Handlers)
    (now : Nat) (l : List JValue)
    (h1 : cJSON_GetObjectItemCaseSensitive root "steps" =
      some (JValue.arr l))
    (h2 : cJSON_GetObjectItemCaseSensitive root2 "steps" =
      some (JValue.arr l)) :
    handle_sequence_type root hs now = seqStepsRun l hs now ∧
    handle_sequence_type root2 hs now = handle_sequence_type root hs now := by
  have e1 := handle_sequence_type_eq root hs now l h1
  have e2 := handle_sequence_type_eq root2 hs now l h2
  exact ⟨e1, by rw [e1, e2]⟩

/-- C1 witness: sequences with `repeat = 0` and `repeat = -5` both
execute their single `stop` step exactly once. -/
theorem c1_sequence_single_pass_witness :
    handle_sequence_type seqRepeat0 allBound 0 = [InvEvent.stop] ∧
    handle_sequence_type seqRepeatNeg5 allBound 0 = [InvEvent.stop] := by
  have h := c1_sequence_single_pass seqRepeat0 seqRepeatNeg5 allBound 0
    [stopStep] rfl rfl
  constructor
  · rw [h.1]; decide
  · rw [h.2, h.1]; decide

/-- C2: the claim as stated fails on the code: a sequence step carrying
its own `type` field is not dispatched through the router; it goes to
`handle_single_command_object`, which drops it for lack of a `kind`
(zero invocations), while routing the very same step as a full message
would invoke `stop`. -/
theorem c2_typed_step_not_dispatched :
    handle_sequence_type seqTypedOnly allBound 0 = [] ∧
    (routeMessage typedStep allBound 0).2 = [InvEvent.stop] :=
  ⟨by decide, by decide⟩

/-- C2 (amended): every object step of a sequence, even one carrying its
own `type` field, is evaluated directly as a bare command object by
`handle_single_command_object`; nested full messages are not re-routed. -/
theorem c2_steps_evaluated_as_bare (root : JValue) (hs : Handlers)
    (now : Nat) (l1 l2 : List JValue) (fields : List (String × JValue))
    (tv : JValue)
    (hsteps : cJSON_GetObjectItemCaseSensitive root "steps" =
      some (JValue.arr (l1 ++ JValue.obj fields :: l2)))
    (_htype : lookupField fields "type" = some tv) :
    handle_sequence_type root hs now =
      seqStepsRun l1 hs now ++
        (handle_single_command_object (JValue.obj fields) hs now).2 ++
        seqStepsRun l2 hs now := by
  rw [handle_sequence_type_eq root hs now _ hsteps, seqStepsRun_append,
    seqStepsRun_cons_obj, List.append_assoc]

/-- C2 witness: a bare `stop` step followed by a `type`-carrying step
yields exactly the one `stop` invocation; the typed step contributes
nothing. -/
theorem c2_steps_evaluated_as_bare_witness :
    handle_sequence_type seqBareThenTyped allBound 0 = [InvEvent.stop] := by
  have h := c2_steps_evaluated_as_bare seqBareThenTyped allBound 0
    [stopStep] []
    [("type", JValue.str "command"),
     ("command", JValue.obj [("kind", JValue.str "stop")])]
    (JValue.str "command") rfl rfl
  rw [h]
  decide

/-- C5: a Turn command with numeric `radius` and `angle` is rejected
precisely when the effective speed (default 0) is non-positive and the
effective duration (default 0) is zero, and a rejected Turn performs no
invocation. -/
theorem c5_turn_requires_speed_or_duration (c : JValue) (hs : Handlers)
    (rq aq : ℚ)
    (hr : cJSON_GetObjectItemCaseSensitive c "radius" =
      some (JValue.num rq))
    (ha : cJSON_GetObjectItemCaseSensitive c "angle" =
      some (JValue.num aq)) :
    ((handle_turn_command c hs).1 = false ↔
      (i32Or0 c "speed" ≤ 0 ∧ u32Or0 c "duration" = 0)) ∧
    ((handle_turn_command c hs).1 = false →
      (handle_turn_command c hs).2 = []) := by
  constructor
  · unfold handle_turn_command
    dsimp only
    rw [hr, ha, if_neg (by simp [cJSON_IsNumber])]
    split_ifs with hc
    · simp [hc]
    · simp [hc]
  · intro h
    rcases handle_turn_shape c hs with hsh | hsh
    · rw [hsh]
    · rw [h] at hsh
      exact absurd hsh (by simp)

/-- C5 witness: `speed=0, duration=0` is rejected with zero invocations;
`speed=0, duration=500` is accepted. -/
theorem c5_turn_requires_speed_or_duration_witness :
    ((handle_turn_command turnSpeed0Dur0 allBound).1 = false ∧
      (handle_turn_command turnSpeed0Dur0 allBound).2 = []) ∧
    (handle_turn_command turnSpeed0Dur500 allBound).1 = true := by
  have h0 := c5_turn_requires_speed_or_duration turnSpeed0Dur0 allBound
    200 90 rfl rfl
  have h5 := c5_turn_requires_speed_or_duration turnSpeed0Dur500 allBound
    200 90 rfl rfl
  have hrej : (handle_turn_command turnSpeed0Dur0 allBound).1 = false :=
    h0.1.mpr (by decide)
  refine ⟨⟨hrej, h0.2 hrej⟩, ?_⟩
  cases hres : (handle_turn_command turnSpeed0Dur500 allBound).1 with
  | false => exact absurd (h5.1.mp hres) (by decide)
  | true => rfl

/-- C6: `handle_immediate_command` never reads the document's `now_ms`
field: two command objects agreeing on every field other than `now_ms`
are handled identically, and any invocation it performs carries the
engine clock value as its `now_ms` argument. -/
theorem c6_now_ms_from_engine_clock (c1 c2 : JValue) (hs : Handlers)
    (now : Nat)
    (h : ∀ k, k ≠ "now_ms" → cJSON_GetObjectItemCaseSensitive c1 k =
      cJSON_GetObjectItemCaseSensitive c2 k) :
    handle_immediate_command c1 hs now =
      handle_immediate_command c2 hs now ∧
    ((handle_immediate_command c1 hs now).2 = [] ∨
      ∃ lq rq tq, (handle_immediate_command c1 hs now).2 =
        [InvEvent.immediate lq rq tq now]) := by
  constructor
  · unfold handle_immediate_command
    rw [h "left" (by decide), h "right" (by decide),
      h "timeout_ms" (by decide)]
  · unfold handle_immediate_command
    dsimp only
    split
    · exact Or.inl rfl
    · split
      · exact Or.inr ⟨_, _, _, rfl⟩
      · exact Or.inl rfl

/-- C6 witness: two immediate commands differing only in their `now_ms`
field (5 vs 99) are handled identically, and the invocation carries the
engine clock 777. -/
theorem c6_now_ms_from_engine_clock_witness :
    handle_immediate_command immNow5 allBound 777 =
      handle_immediate_command immNow99 allBound 777 ∧
    ((handle_immediate_command immNow5 allBound 777).2 = [] ∨
      ∃ lq rq tq, (handle_immediate_command immNow5 allBound 777).2 =
        [InvEvent.immediate lq rq tq 777]) := by
  apply c6_now_ms_from_engine_clock
  intro k hk
  unfold immNow5 immNow99 cJSON_GetObjectItemCaseSensitive
  simp only [lookupField]
  split_ifs with hcase1 hcase2 hcase3 hcase4
  · rfl
  · rfl
  · rfl
  · exact absurd hcase4.symm hk
  · rfl

theorem numOr0_obj (fields : List (String × JValue)) (key : String) :
    numOr0 (JValue.obj fields) key = rawNumOr0 fields key := by
  unfold numOr0 rawNumOr0 cJSON_GetObjectItemCaseSensitive
  cases h : lookupField fields key with
  | none => simp [cJSON_IsNumber, numValue, h]
  | some v => cases v <;> simp [cJSON_IsNumber, numValue, h]

theorem boolOrFalse_obj (fields : List (String × JValue)) (key : String) :
    boolOrFalse (JValue.obj fields) key = rawBoolOrFalse fields key := by
  unfold boolOrFalse rawBoolOrFalse cJSON_GetObjectItemCaseSensitive
  cases h : lookupField fields key with
  | none => simp [cJSON_IsBool, cJSON_IsTrue, h]
  | some v => cases v <;> simp [cJSON_IsBool, cJSON_IsTrue, h]

/-- C7: for a config message with a `drive` object, the loader builds
exactly the §4.5 snapshot — each of the eleven fields independently
taken from the document when present and correctly typed, zero/false
otherwise — and invokes `set_drive_config` exactly once when bound
(and never otherwise). -/
theorem c7_config_complete_snapshot (root : JValue) (hs : Handlers)
    (fields : List (String × JValue))
    (hd : cJSON_GetObjectItemCaseSensitive root "drive" =
      some (JValue.obj fields)) :
    handle_config_type root hs =
      (if hs.set_drive_config = true
        then [InvEvent.setDriveConfig (driveCfgSpec fields)] else []) := by
  unfold handle_config_type
  rw [hd]
  dsimp only
  have hcfg : driveCfgOf (JValue.obj fields) = driveCfgSpec fields := by
    simp [driveCfgOf, driveCfgSpec, numOr0_obj, boolOrFalse_obj]
  rw [hcfg]

/-- C7 witness (Scenario C): a `drive` object giving only
`wheel_track_mm = 120` and `enable_speed_control = true` produces one
`set_drive_config` invocation whose snapshot has those two values and
all nine other fields at zero/false. -/
theorem c7_config_complete_snapshot_witness :
    handle_config_type cfgDocC allBound =
      [InvEvent.setDriveConfig
        { wheel_track_mm := 120, wheel_radius_mm := 0,
          min_speed_mm_per_s := 0, max_speed_mm_per_s := 0,
          ticks_per_revolution := 0, brake_on_stop := false,
          enable_speed_control := true, speed_kp := 0, speed_ki := 0,
          motor_gain_left := 0, motor_gain_right := 0 }] := by
  rw [c7_config_complete_snapshot cfgDocC allBound cfgFieldsC rfl]
  decide

/-- C8: a Drive command object (kind `drive`, string `direction`,
numeric `speed`) with the drive capability bound is accepted and invokes
`drive` exactly once, with the direction string, the speed as a signed
32-bit integer, and `duration`/`distance` defaulting to 0 when absent
or non-numeric. -/
theorem c8_drive_fields (c : JValue) (hs : Handlers) (now : Nat)
    (dir : String) (sq : ℚ)
    (hk : cJSON_GetObjectItemCaseSensitive c "kind" =
      some (JValue.str "drive"))
    (hdir : cJSON_GetObjectItemCaseSensitive c "direction" =
      some (JValue.str dir))
    (hsp : cJSON_GetObjectItemCaseSensitive c "speed" =
      some (JValue.num sq))
    (hb : hs.drive = true) :
    handle_single_command_object c hs now =
      (true, [InvEvent.drive dir (i32OfQ sq) (u32Or0 c "duration")
        (u32Or0 c "distance")]) := by
  unfold handle_single_command_object
  dsimp only
  rw [hk, if_neg (by simp [cJSON_IsString]), if_pos (by simp [strValue])]
  unfold handle_drive_command
  dsimp only
  rw [hdir, hsp, if_neg (by simp [cJSON_IsString, cJSON_IsNumber])]
  simp [strValue, numValue, hb]

/-- C8 witness (Scenario A): the drive command with direction `forward`,
speed 150 and distance 1000 invokes `drive("forward", 150, 0, 1000)`. -/
theorem c8_drive_fields_witness :
    handle_single_command_object driveCmdA allBound 0 =
      (true, [InvEvent.drive "forward" 150 0 1000]) := by
  rw [c8_drive_fields driveCmdA allBound 0 "forward" 150 rfl rfl rfl rfl]
  decide

/-- C9: a sequence step that is not an object, or whose evaluation
fails, contributes no invocation and does not disturb its siblings: the
sequence's invocations are exactly the steps before it followed by the
steps after it. -/
theorem c9_failing_step_is_local (root : JValue) (hs : Handlers)
    (now : Nat) (l1 l2 : List JValue) (s : JValue)
    (hsteps : cJSON_GetObjectItemCaseSensitive root "steps" =
      some (JValue.arr (l1 ++ s :: l2)))
    (hfail : s.isObj = false ∨
      (handle_single_command_object s hs now).1 = false) :
    handle_sequence_type root hs now =
      seqStepsRun l1 hs now ++ seqStepsRun l2 hs now := by
  rw [handle_sequence_type_eq root hs now _ hsteps, seqStepsRun_append]
  have hstep : seqStepsRun (s :: l2) hs now = seqStepsRun l2 hs now := by
    rcases hfail with hno | hf
    · exact seqStepsRun_cons_nonobj s l2 hs now hno
    · cases s with
      | obj fields =>
        rw [seqStepsRun_cons_obj, handle_single_fail _ _ _ hf,
          List.nil_append]
      | null => rfl
      | jbool b => rfl
      | num q => rfl
      | str st => rfl
      | arr items => rfl
  rw [hstep]

/-- C9 witness: an unknown-kind step is skipped and its sibling `stop`
step still executes. -/
theorem c9_failing_step_is_local_witness :
    handle_sequence_type seqBadThenStop allBound 0 = [InvEvent.stop] := by
  have h := c9_failing_step_is_local seqBadThenStop allBound 0 []
    [stopStep] badKindStep rfl (Or.inr (by decide))
  rw [h]
  decide

/-- C10: calling the dispatch entry point with a NULL data pointer or a
zero length returns immediately (`noInput`, before any parse attempt)
and performs no capability invocation. -/
theorem c10_null_or_empty_input (bytes : List Char) (len : Nat)
    (hs : Handlers) (now : Nat) :
    protocol_handle_command_json none len hs now =
      (Outcome.noInput, []) ∧
    protocol_handle_command_json (some bytes) 0 hs now =
      (Outcome.noInput, []) :=
  ⟨rfl, rfl⟩

/-- C4: the claim as stated fails on the code: the input `7` is
well-formed JSON, so `cJSON_Parse` succeeds (cJSON accepts any value as
root); the message is then dropped by the router for a missing `type`
discriminant — not a `ParseError` — with zero invocations. -/
theorem c4_nonobject_root_not_parse_error :
    protocol_handle_command_json (some nonObjectInput) 1 allBound 0 =
      (Outcome.missingType, []) ∧
    Outcome.missingType ≠ Outcome.parseError :=
  ⟨by decide, by decide⟩

/-- C4 (amended): for every input buffer, a failed parse (malformed
bytes, e.g. truncated or unbalanced braces) yields `ParseError` and
zero invocations; a successful parse whose root is not a JSON object is
dropped by the router with a missing-discriminant diagnostic, again
with zero invocations.  In neither case is any part of the message
dispatched. -/
theorem c4_parse_failure_no_invocations (bytes : List Char) (len : Nat)
    (hs : Handlers) (now : Nat) (hlen : len ≠ 0) :
    (cJSON_Parse (prepBuffer bytes len) = none →
      protocol_handle_command_json (some bytes) len hs now =
        (Outcome.parseError, [])) ∧
    (∀ root, cJSON_Parse (prepBuffer bytes len) = some root →
      root.isObj = false →
      protocol_handle_command_json (some bytes) len hs now =
        (Outcome.missingType, [])) := by
  constructor
  · intro hp
    unfold protocol_handle_command_json
    dsimp only
    rw [if_neg hlen, hp]
  · intro root hp hobj
    unfold protocol_handle_command_json
    dsimp only
    rw [if_neg hlen, hp]
    dsimp only
    unfold routeMessage
    have hty : cJSON_GetObjectItemCaseSensitive root "type" = none := by
      cases root <;>
        first
          | rfl
          | exact absurd hobj (by simp [JValue.isObj])
    rw [hty, if_pos (by simp [cJSON_IsString])]

/-- C4 witness: the truncated input `{"type":"command` fails to parse,
and the entry point reports `ParseError` with zero invocations. -/
theorem c4_parse_failure_no_invocations_witness :
    cJSON_Parse (prepBuffer truncatedInput 17) = none ∧
    protocol_handle_command_json (some truncatedInput) 17 allBound 0 =
      (Outcome.parseError, []) := by
  have h := c4_parse_failure_no_invocations truncatedInput 17 allBound 0
    (by decide)
  exact ⟨by rfl, h.1 (by rfl)⟩

/-! ### Digit and character lemmas for the round-trip proof -/

theorem isDig_toNat {c : Char} (h : isDig c = true) :
    48 ≤ c.toNat ∧ c.toNat ≤ 57 := by
  simpa [isDig] using h

theorem isDig_ne {c x : Char} (h : isDig c = true)
    (hx : isDig x = false) : c ≠ x := by
  intro he
  rw [he, hx] at h
  exact absurd h (by simp)

theorem isDig_not_ws {c : Char} (h : isDig c = true) : ¬ c.toNat ≤ 32 := by
  have := isDig_toNat h
  omega

theorem skipWs_cons {c : Char} (r : List Char) (h : ¬ c.toNat ≤ 32) :
    skipWs (c :: r) = c :: r := by
  unfold skipWs
  rw [if_neg h]

theorem ofNat_digit_isDig {d : Nat} (h : d < 10) :
    isDig (Char.ofNat (48 + d)) = true := by
  interval_cases d <;> decide

theorem ofNat_digit_toNat {d : Nat} (h : d < 10) :
    (Char.ofNat (48 + d)).toNat = 48 + d := by
  interval_cases d <;> decide

theorem natDigits_all_dig (n : Nat) :
    ∀ c ∈ natDigits n, isDig c = true := by
  induction n using Nat.strong_induction_on with
  | _ n ih =>
    unfold natDigits
    split
    · intro c hc
      simp only [List.mem_singleton] at hc
      subst hc
      exact ofNat_digit_isDig ‹n < 10›
    · intro c hc
      rw [List.mem_append] at hc
      rcases hc with hc | hc
      · exact ih (n / 10) (by omega) c hc
      · simp only [List.mem_singleton] at hc
        subst hc
        exact ofNat_digit_isDig (by omega)

theorem natDigits_ne_nil (n : Nat) : natDigits n ≠ [] := by
  unfold natDigits
  split <;> simp

theorem digitsValAcc_append (acc : Nat) (xs ys : List Char) :
    digitsValAcc acc (xs ++ ys) = digitsValAcc (digitsValAcc acc xs) ys := by
  induction xs generalizing acc with
  | nil => rfl
  | cons c r ih =>
    show digitsValAcc (acc * 10 + (c.toNat - 48)) (r ++ ys) =
      digitsValAcc (digitsValAcc (acc * 10 + (c.toNat - 48)) r) ys
    exact ih _

theorem digitsVal_natDigits (n : Nat) : digitsVal (natDigits n) = n := by
  induction n using Nat.strong_induction_on with
  | _ n ih =>
    unfold natDigits
    split
    · show 0 * 10 + ((Char.ofNat (48 + n)).toNat - 48) = n
      rw [ofNat_digit_toNat ‹n < 10›]
      omega
    · rw [digitsVal, digitsValAcc_append]
      have h1 : digitsValAcc 0 (natDigits (n / 10)) = n / 10 :=
        ih (n / 10) (by omega)
      rw [h1]
      show n / 10 * 10 + ((Char.ofNat (48 + n % 10)).toNat - 48) = n
      rw [ofNat_digit_toNat (show n % 10 < 10 by omega)]
      omega

theorem spanDigits_all (ds rest : List Char)
    (hds : ∀ c ∈ ds, isDig c = true)
    (hrest : ∀ c r', rest = c :: r' → isDig c = false) :
    spanDigits (ds ++ rest) = (ds, rest) := by
  induction ds with
  | nil =>
    simp only [List.nil_append]
    cases rest with
    | nil => rfl
    | cons c r' =>
      unfold spanDigits
      simp [hrest c r' rfl]
  | cons c ds ih =>
    have hc : isDig c = true := hds c (by simp)
    have ih' := ih (fun x hx => hds x (by simp [hx]))
    simp [spanDigits, hc, ih']

theorem pad3_all_dig (B : Nat) (hB : B < 1000) :
    ∀ c ∈ pad3 B, isDig c = true := by
  intro c hc
  simp only [pad3, List.mem_cons, List.mem_singleton,
    List.not_mem_nil, or_false] at hc
  rcases hc with h | h | h <;> subst h <;>
    exact ofNat_digit_isDig (by omega)

theorem digitsVal_pad3 (B : Nat) (hB : B < 1000) :
    digitsVal (pad3 B) = B := by
  show ((0 * 10 + ((Char.ofNat (48 + B / 100)).toNat - 48)) * 10 +
      ((Char.ofNat (48 + B / 10 % 10)).toNat - 48)) * 10 +
      ((Char.ofNat (48 + B % 10)).toNat - 48) = B
  rw [ofNat_digit_toNat (show B / 100 < 10 by omega),
    ofNat_digit_toNat (show B / 10 % 10 < 10 by omega),
    ofNat_digit_toNat (show B % 10 < 10 by omega)]
  omega

theorem pad3_length (B : Nat) : (pad3 B).length = 3 := rfl


theorem parseNumberCore_natDigits (sgnv : Int) (a : Nat) (hd : Char)
    (tl : List Char) (h1 : isDig hd = false) (h2 : hd ≠ '.')
    (h3 : hd ≠ 'e') (h4 : hd ≠ 'E') :
    parseNumberCore sgnv (natDigits a ++ hd :: tl) =
      some (mkRat (sgnv * (a : Int)) 1, hd :: tl) := by
  have hspan : spanDigits (natDigits a ++ hd :: tl) =
      (natDigits a, hd :: tl) :=
    spanDigits_all _ _ (natDigits_all_dig a)
      (fun c r' he => by injection he with e1 e2; rw [← e1]; exact h1)
  have hne : natDigits a ≠ [] := natDigits_ne_nil a
  have hval : digitsVal (natDigits a) = a := digitsVal_natDigits a
  have hnil : digitsVal ([] : List Char) = 0 := rfl
  unfold parseNumberCore
  simp only [hspan]
  rw [if_neg h2]
  simp [h3, h4, hne, hval, hnil]

theorem parseNumberCore_digits_dot (sgnv : Int) (A B : Nat)
    (hB : B < 1000) (hd : Char) (tl : List Char)
    (h1 : isDig hd = false) (h3 : hd ≠ 'e') (h4 : hd ≠ 'E') :
    parseNumberCore sgnv (natDigits A ++ '.' :: (pad3 B ++ hd :: tl)) =
      some (mkRat (sgnv * ((A : Int) * 1000 + (B : Int))) 1000,
        hd :: tl) := by
  have hspan : spanDigits (natDigits A ++ '.' :: (pad3 B ++ hd :: tl)) =
      (natDigits A, '.' :: (pad3 B ++ hd :: tl)) :=
    spanDigits_all _ _ (natDigits_all_dig A)
      (fun c r' he => by injection he with e1 e2; rw [← e1]; decide)
  have hspan2 : spanDigits (pad3 B ++ hd :: tl) = (pad3 B, hd :: tl) :=
    spanDigits_all _ _ (pad3_all_dig B hB)
      (fun c r' he => by injection he with e1 e2; rw [← e1]; exact h1)
  have hvalA : digitsVal (natDigits A) = A := digitsVal_natDigits A
  have hvalB : digitsVal (pad3 B) = B := digitsVal_pad3 B hB
  have hlen : (pad3 B).length = 3 := pad3_length B
  unfold parseNumberCore
  simp only [hspan]
  simp [hspan2, h3, h4, hvalA, hvalB, hlen, natDigits_ne_nil A]

theorem parseNumber_natDigits (a : Nat) (hd : Char) (tl : List Char)
    (h1 : isDig hd = false) (h2 : hd ≠ '.') (h3 : hd ≠ 'e')
    (h4 : hd ≠ 'E') :
    parseNumber (natDigits a ++ hd :: tl) = some ((a : ℚ), hd :: tl) := by
  obtain ⟨c0, cs0, hc⟩ : ∃ c0 cs0, natDigits a = c0 :: cs0 := by
    cases h : natDigits a with
    | nil => exact absurd h (natDigits_ne_nil a)
    | cons x xs => exact ⟨x, xs, rfl⟩
  have hc0 : isDig c0 = true := natDigits_all_dig a c0 (by rw [hc]; simp)
  rw [hc]
  simp only [List.cons_append, parseNumber]
  rw [if_neg (isDig_ne hc0 (by decide)), if_neg (isDig_ne hc0 (by decide))]
  rw [show c0 :: (cs0 ++ hd :: tl) = natDigits a ++ hd :: tl from
    by rw [hc, List.cons_append]]
  rw [parseNumberCore_natDigits 1 a hd tl h1 h2 h3 h4]
  norm_num [Rat.mkRat_eq_div]

theorem parseNumber_fmt3 (q : ℚ) (hd : Char) (tl : List Char)
    (h1 : isDig hd = false) (h3 : hd ≠ 'e') (h4 : hd ≠ 'E') :
    parseNumber (fmt3 q ++ hd :: tl) = some (fmt3Val q, hd :: tl) := by
  have hB : (roundQ (q * 1000)).natAbs % 1000 < 1000 :=
    Nat.mod_lt _ (by omega)
  by_cases hn : roundQ (q * 1000) < 0
  · have hshape : fmt3 q ++ hd :: tl =
        '-' :: (natDigits ((roundQ (q * 1000)).natAbs / 1000) ++
          '.' :: (pad3 ((roundQ (q * 1000)).natAbs % 1000) ++
            hd :: tl)) := by
      unfold fmt3
      rw [if_pos hn]
      simp [List.append_assoc]
    rw [hshape]
    simp only [parseNumber]
    have e1 : ((('-' : Char) = '+')) = False := by simp
    have e2 : ((('-' : Char) = '-')) = True := by simp
    simp only [e1, e2, if_true, if_false]
    rw [parseNumberCore_digits_dot (-1) _ _ hB hd tl h1 h3 h4]
    have hx : (-1 : Int) * (((roundQ (q * 1000)).natAbs / 1000 : Nat) *
        1000 + ((roundQ (q * 1000)).natAbs % 1000 : Nat)) =
        roundQ (q * 1000) := by omega
    rw [hx]
    rfl
  · have hshape : fmt3 q ++ hd :: tl =
        natDigits ((roundQ (q * 1000)).natAbs / 1000) ++
          '.' :: (pad3 ((roundQ (q * 1000)).natAbs % 1000) ++
            hd :: tl) := by
      unfold fmt3
      rw [if_neg hn]
      simp [List.append_assoc]
    rw [hshape]
    obtain ⟨c0, cs0, hc⟩ : ∃ c0 cs0,
        natDigits ((roundQ (q * 1000)).natAbs / 1000) = c0 :: cs0 := by
      cases h : natDigits ((roundQ (q * 1000)).natAbs / 1000) with
      | nil => exact absurd h (natDigits_ne_nil _)
      | cons x xs => exact ⟨x, xs, rfl⟩
    have hc0 : isDig c0 = true :=
      natDigits_all_dig _ c0 (by rw [hc]; simp)
    rw [hc]
    simp only [List.cons_append, parseNumber]
    rw [if_neg (isDig_ne hc0 (by decide)),
      if_neg (isDig_ne hc0 (by decide))]
    rw [show c0 :: (cs0 ++ '.' ::
        (pad3 ((roundQ (q * 1000)).natAbs % 1000) ++ hd :: tl)) =
      natDigits ((roundQ (q * 1000)).natAbs / 1000) ++ '.' ::
        (pad3 ((roundQ (q * 1000)).natAbs % 1000) ++ hd :: tl) from
      by rw [hc, List.cons_append]]
    rw [parseNumberCore_digits_dot 1 _ _ hB hd tl h1 h3 h4]
    have hx : (1 : Int) * (((roundQ (q * 1000)).natAbs / 1000 : Nat) *
        1000 + ((roundQ (q * 1000)).natAbs % 1000 : Nat)) =
        roundQ (q * 1000) := by omega
    rw [hx]
    rfl

theorem parseStringBody_plain (cs rest : List Char) (fuel : Nat)
    (hfuel : cs.length < fuel)
    (h : ∀ c ∈ cs, c ≠ '"' ∧ c ≠ '\\') :
    parseStringBody fuel (cs ++ '"' :: rest) = some (cs, rest) := by
  induction cs generalizing fuel with
  | nil =>
    obtain ⟨g, rfl⟩ : ∃ g, fuel = g + 1 := ⟨fuel - 1, by omega⟩
    show parseStringBody (g + 1) ('"' :: rest) = some ([], rest)
    simp [parseStringBody]
  | cons c cs ih =>
    obtain ⟨g, rfl⟩ : ∃ g, fuel = g + 1 := ⟨fuel - 1, by omega⟩
    have hc := h c (by simp)
    have ih' := ih g (by simp at hfuel; omega)
      (fun x hx => h x (List.mem_cons_of_mem c hx))
    show parseStringBody (g + 1) (c :: (cs ++ '"' :: rest)) =
      some (c :: cs, rest)
    simp only [parseStringBody]
    rw [if_neg hc.1, if_neg hc.2, ih']

theorem parseValue_string (f : Nat) (hf : f ≠ 0) (cs rest : List Char)
    (h : ∀ c ∈ cs, c ≠ '"' ∧ c ≠ '\\') :
    parseValue f ('"' :: (cs ++ '"' :: rest)) =
      some (JValue.str (String.mk cs), rest) := by
  obtain ⟨g, rfl⟩ : ∃ g, f = g + 1 := ⟨f - 1, by omega⟩
  simp only [parseValue]
  rw [if_neg (by decide), if_neg (by decide), if_neg (by decide)]
  have e : ((('"' : Char) = '"')) = True := by simp
  simp only [e, if_true]
  rw [parseStringBody_plain cs rest _ (by simp; omega) h]

theorem fmt3_head (q : ℚ) : ∃ c0 cs0, fmt3 q = c0 :: cs0 ∧
    (c0 = '-' ∨ isDig c0 = true) := by
  unfold fmt3
  by_cases hn : roundQ (q * 1000) < 0
  · rw [if_pos hn]
    exact ⟨'-', _, rfl, Or.inl rfl⟩
  · rw [if_neg hn]
    obtain ⟨d0, ds0, hd0⟩ : ∃ d0 ds0,
        natDigits ((roundQ (q * 1000)).natAbs / 1000) = d0 :: ds0 := by
      cases h : natDigits ((roundQ (q * 1000)).natAbs / 1000) with
      | nil => exact absurd h (natDigits_ne_nil _)
      | cons x xs => exact ⟨x, xs, rfl⟩
    rw [hd0]
    exact ⟨d0, ds0 ++ '.' :: pad3 ((roundQ (q * 1000)).natAbs % 1000),
      by simp, Or.inr (natDigits_all_dig _ d0 (by rw [hd0]; simp))⟩

theorem parseValue_natDigits (f : Nat) (hf : f ≠ 0) (a : Nat) (hd : Char)
    (tl : List Char) (h1 : isDig hd = false) (h2 : hd ≠ '.')
    (h3 : hd ≠ 'e') (h4 : hd ≠ 'E') :
    parseValue f (natDigits a ++ hd :: tl) =
      some (JValue.num (a : ℚ), hd :: tl) := by
  obtain ⟨g, rfl⟩ : ∃ g, f = g + 1 := ⟨f - 1, by omega⟩
  obtain ⟨c0, cs0, hc⟩ : ∃ c0 cs0, natDigits a = c0 :: cs0 := by
    cases h : natDigits a with
    | nil => exact absurd h (natDigits_ne_nil a)
    | cons x xs => exact ⟨x, xs, rfl⟩
  have hc0 : isDig c0 = true := natDigits_all_dig a c0 (by rw [hc]; simp)
  rw [hc]
  simp only [List.cons_append, parseValue]
  rw [if_neg (isDig_ne hc0 (by decide)), if_neg (isDig_ne hc0 (by decide)),
    if_neg (isDig_ne hc0 (by decide)), if_neg (isDig_ne hc0 (by decide)),
    if_neg (isDig_ne hc0 (by decide)), if_neg (isDig_ne hc0 (by decide)),
    if_pos (Or.inr hc0)]
  rw [show c0 :: (cs0 ++ hd :: tl) = natDigits a ++ hd :: tl from
    by rw [hc, List.cons_append]]
  rw [parseNumber_natDigits a hd tl h1 h2 h3 h4]

theorem parseValue_fmt3 (f : Nat) (hf : f ≠ 0) (q : ℚ) (hd : Char)
    (tl : List Char) (h1 : isDig hd = false) (h3 : hd ≠ 'e')
    (h4 : hd ≠ 'E') :
    parseValue f (fmt3 q ++ hd :: tl) =
      some (JValue.num (fmt3Val q), hd :: tl) := by
  obtain ⟨g, rfl⟩ : ∃ g, f = g + 1 := ⟨f - 1, by omega⟩
  obtain ⟨c0, cs0, hfc, hdisp⟩ := fmt3_head q
  have hc : fmt3 q ++ hd :: tl = c0 :: (cs0 ++ hd :: tl) := by
    rw [hfc, List.cons_append]
  have hne : c0 ≠ 'n' ∧ c0 ≠ 't' ∧ c0 ≠ 'f' ∧ c0 ≠ '"' ∧ c0 ≠ '[' ∧
      c0 ≠ '\x7b' := by
    rcases hdisp with h | h
    · subst h
      exact ⟨by decide, by decide, by decide, by decide, by decide,
        by decide⟩
    · exact ⟨isDig_ne h (by decide), isDig_ne h (by decide),
        isDig_ne h (by decide), isDig_ne h (by decide),
        isDig_ne h (by decide), isDig_ne h (by decide)⟩
  rw [hc]
  simp only [parseValue]
  rw [if_neg hne.1, if_neg hne.2.1, if_neg hne.2.2.1,
    if_neg hne.2.2.2.1, if_neg hne.2.2.2.2.1, if_neg hne.2.2.2.2.2,
    if_pos hdisp]
  rw [← hc, parseNumber_fmt3 q hd tl h1 h3 h4]

theorem skipWs_natDigits (a : Nat) (X : List Char) :
    skipWs (natDigits a ++ X) = natDigits a ++ X := by
  obtain ⟨c0, cs0, hc⟩ : ∃ c0 cs0, natDigits a = c0 :: cs0 := by
    cases h : natDigits a with
    | nil => exact absurd h (natDigits_ne_nil a)
    | cons x xs => exact ⟨x, xs, rfl⟩
  have hc0 : isDig c0 = true := natDigits_all_dig a c0 (by rw [hc]; simp)
  rw [hc, List.cons_append]
  exact skipWs_cons _ (isDig_not_ws hc0)

theorem skipWs_fmt3 (q : ℚ) (X : List Char) :
    skipWs (fmt3 q ++ X) = fmt3 q ++ X := by
  obtain ⟨c0, cs0, hfc, hdisp⟩ := fmt3_head q
  rw [hfc, List.cons_append]
  refine skipWs_cons _ ?_
  rcases hdisp with h | h
  · subst h; decide
  · exact isDig_not_ws h

theorem fieldsLoop_step_close (f fl : Nat) (hfl : fl ≠ 0)
    (key vtxt : List Char) (v : JValue) (r4 : List Char)
    (hkeyok : ∀ c ∈ key, c ≠ '"' ∧ c ≠ '\\')
    (hval : parseValue f (skipWs vtxt) = some (v, '\x7d' :: r4)) :
    fieldsLoop (fun s2 => parseValue f s2) fl
      ('"' :: (key ++ '"' :: (':' :: vtxt))) =
      some ([(String.mk key, v)], r4) := by
  obtain ⟨gl, rfl⟩ : ∃ g, fl = g + 1 := ⟨fl - 1, by omega⟩
  simp only [fieldsLoop]
  have e : ((('"' : Char) = '"')) = True := by simp
  simp only [e, if_true]
  have hkey := parseStringBody_plain key (':' :: vtxt)
    ((key ++ '"' :: (':' :: vtxt)).length + 1) (by simp; omega) hkeyok
  simp only [hkey]
  have hcol : skipWs (':' :: vtxt) = ':' :: vtxt := skipWs_cons _ (by decide)
  simp only [hcol]
  have e2 : (((':' : Char) = ':')) = True := by simp
  simp only [e2, if_true]
  simp only [hval]
  have hbr : skipWs ('\x7d' :: r4) = '\x7d' :: r4 :=
    skipWs_cons _ (by decide)
  simp only [hbr]
  rw [if_neg (by decide : ¬ ('\x7d' : Char) = ',')]
  have e3 : ((('\x7d' : Char) = '\x7d')) = True := by simp
  simp only [e3, if_true]

theorem fieldsLoop_step_comma (f fl : Nat) (hfl : fl ≠ 0)
    (key vtxt rest2 : List Char) (v : JValue)
    (fs : List (String × JValue)) (r5 : List Char)
    (hkeyok : ∀ c ∈ key, c ≠ '"' ∧ c ≠ '\\')
    (hval : parseValue f (skipWs vtxt) = some (v, ',' :: rest2))
    (hrec : fieldsLoop (fun s2 => parseValue f s2) (fl - 1)
      (skipWs rest2) = some (fs, r5)) :
    fieldsLoop (fun s2 => parseValue f s2) fl
      ('"' :: (key ++ '"' :: (':' :: vtxt))) =
      some ((String.mk key, v) :: fs, r5) := by
  obtain ⟨gl, rfl⟩ : ∃ g, fl = g + 1 := ⟨fl - 1, by omega⟩
  simp only [fieldsLoop]
  have e : ((('"' : Char) = '"')) = True := by simp
  simp only [e, if_true]
  have hkey := parseStringBody_plain key (':' :: vtxt)
    ((key ++ '"' :: (':' :: vtxt)).length + 1) (by simp; omega) hkeyok
  simp only [hkey]
  have hcol : skipWs (':' :: vtxt) = ':' :: vtxt := skipWs_cons _ (by decide)
  simp only [hcol]
  have e2 : (((':' : Char) = ':')) = True := by simp
  simp only [e2, if_true]
  simp only [hval]
  have hcm : skipWs (',' :: rest2) = ',' :: rest2 :=
    skipWs_cons _ (by decide)
  simp only [hcm]
  have e3 : (((',' : Char) = ',')) = True := by simp
  simp only [e3, if_true]
  have hrec2 : fieldsLoop (fun s2 => parseValue f s2) gl
      (skipWs rest2) = some (fs, r5) := by
    simpa using hrec
  simp only [hrec2]

theorem fieldsLoop_now (f fl : Nat) (hf : f ≠ 0) (hfl : fl ≠ 0)
    (n : Nat) :
    fieldsLoop (fun s2 => parseValue f s2) fl
      ('"' :: 'n' :: 'o' :: 'w' :: '_' :: 'm' :: 's' :: '"' :: ':' :: (natDigits n ++ ['\x7d', '\x7d'])) =
      some ([("now_ms", JValue.num (n : ℚ))], ['\x7d']) := by
  exact fieldsLoop_step_close f fl hfl ['n', 'o', 'w', '_', 'm', 's']
    (natDigits n ++ ['\x7d', '\x7d']) (JValue.num (n : ℚ)) ['\x7d']
    (by decide)
    (by rw [skipWs_natDigits]
        exact parseValue_natDigits f hf n _ _ (by decide) (by decide)
          (by decide) (by decide))

theorem fieldsLoop_timeout (f fl : Nat) (hf : f ≠ 0) (hfl : 2 ≤ fl)
    (t n : Nat) :
    fieldsLoop (fun s2 => parseValue f s2) fl
      ('"' :: 't' :: 'i' :: 'm' :: 'e' :: 'o' :: 'u' :: 't' :: '_' :: 'm' :: 's' :: '"' :: ':' :: (natDigits t ++ (',' :: '"' :: 'n' :: 'o' :: 'w' :: '_' :: 'm' :: 's' :: '"' :: ':' :: (natDigits n ++ ['\x7d', '\x7d'])))) =
      some ([("timeout_ms", JValue.num (t : ℚ)),
        ("now_ms", JValue.num (n : ℚ))], ['\x7d']) := by
  exact fieldsLoop_step_comma f fl (by omega)
    ['t', 'i', 'm', 'e', 'o', 'u', 't', '_', 'm', 's']
    (natDigits t ++ (',' :: '"' :: 'n' :: 'o' :: 'w' :: '_' :: 'm' :: 's' :: '"' :: ':' :: (natDigits n ++ ['\x7d', '\x7d'])))
    ('"' :: 'n' :: 'o' :: 'w' :: '_' :: 'm' :: 's' :: '"' :: ':' :: (natDigits n ++ ['\x7d', '\x7d']))
    (JValue.num (t : ℚ)) [("now_ms", JValue.num (n : ℚ))] ['\x7d']
    (by decide)
    (by rw [skipWs_natDigits]
        exact parseValue_natDigits f hf t _ _ (by decide) (by decide)
          (by decide) (by decide))
    (by rw [skipWs_cons _ (by decide)]
        exact fieldsLoop_now f (fl - 1) hf (by omega) n)

theorem fieldsLoop_right (f fl : Nat) (hf : f ≠ 0) (hfl : 3 ≤ fl)
    (rq : ℚ) (t n : Nat) :
    fieldsLoop (fun s2 => parseValue f s2) fl
      ('"' :: 'r' :: 'i' :: 'g' :: 'h' :: 't' :: '"' :: ':' :: (fmt3 rq ++ (',' :: '"' :: 't' :: 'i' :: 'm' :: 'e' :: 'o' :: 'u' :: 't' :: '_' :: 'm' :: 's' :: '"' :: ':' :: (natDigits t ++ (',' :: '"' :: 'n' :: 'o' :: 'w' :: '_' :: 'm' :: 's' :: '"' :: ':' :: (natDigits n ++ ['\x7d', '\x7d'])))))) =
      some ([("right", JValue.num (fmt3Val rq)),
        ("timeout_ms", JValue.num (t : ℚ)),
        ("now_ms", JValue.num (n : ℚ))], ['\x7d']) := by
  exact fieldsLoop_step_comma f fl (by omega)
    ['r', 'i', 'g', 'h', 't']
    (fmt3 rq ++ (',' :: '"' :: 't' :: 'i' :: 'm' :: 'e' :: 'o' :: 'u' :: 't' :: '_' :: 'm' :: 's' :: '"' :: ':' :: (natDigits t ++ (',' :: '"' :: 'n' :: 'o' :: 'w' :: '_' :: 'm' :: 's' :: '"' :: ':' :: (natDigits n ++ ['\x7d', '\x7d'])))))
    ('"' :: 't' :: 'i' :: 'm' :: 'e' :: 'o' :: 'u' :: 't' :: '_' :: 'm' :: 's' :: '"' :: ':' :: (natDigits t ++ (',' :: '"' :: 'n' :: 'o' :: 'w' :: '_' :: 'm' :: 's' :: '"' :: ':' :: (natDigits n ++ ['\x7d', '\x7d']))))
    (JValue.num (fmt3Val rq))
    [("timeout_ms", JValue.num (t : ℚ)), ("now_ms", JValue.num (n : ℚ))]
    ['\x7d']
    (by decide)
    (by rw [skipWs_fmt3]
        exact parseValue_fmt3 f hf rq _ _ (by decide) (by decide)
          (by decide))
    (by rw [skipWs_cons _ (by decide)]
        exact fieldsLoop_timeout f (fl - 1) hf (by omega) t n)

theorem fieldsLoop_left (f fl : Nat) (hf : f ≠ 0) (hfl : 4 ≤ fl)
    (lq rq : ℚ) (t n : Nat) :
    fieldsLoop (fun s2 => parseValue f s2) fl
      ('"' :: 'l' :: 'e' :: 'f' :: 't' :: '"' :: ':' :: (fmt3 lq ++ (',' :: '"' :: 'r' :: 'i' :: 'g' :: 'h' :: 't' :: '"' :: ':' :: (fmt3 rq ++ (',' :: '"' :: 't' :: 'i' :: 'm' :: 'e' :: 'o' :: 'u' :: 't' :: '_' :: 'm' :: 's' :: '"' :: ':' :: (natDigits t ++ (',' :: '"' :: 'n' :: 'o' :: 'w' :: '_' :: 'm' :: 's' :: '"' :: ':' :: (natDigits n ++ ['\x7d', '\x7d'])))))))) =
      some ([("left", JValue.num (fmt3Val lq)),
        ("right", JValue.num (fmt3Val rq)),
        ("timeout_ms", JValue.num (t : ℚ)),
        ("now_ms", JValue.num (n : ℚ))], ['\x7d']) := by
  exact fieldsLoop_step_comma f fl (by omega)
    ['l', 'e', 'f', 't']
    (fmt3 lq ++ (',' :: '"' :: 'r' :: 'i' :: 'g' :: 'h' :: 't' :: '"' :: ':' :: (fmt3 rq ++ (',' :: '"' :: 't' :: 'i' :: 'm' :: 'e' :: 'o' :: 'u' :: 't' :: '_' :: 'm' :: 's' :: '"' :: ':' :: (natDigits t ++ (',' :: '"' :: 'n' :: 'o' :: 'w' :: '_' :: 'm' :: 's' :: '"' :: ':' :: (natDigits n ++ ['\x7d', '\x7d'])))))))
    ('"' :: 'r' :: 'i' :: 'g' :: 'h' :: 't' :: '"' :: ':' :: (fmt3 rq ++ (',' :: '"' :: 't' :: 'i' :: 'm' :: 'e' :: 'o' :: 'u' :: 't' :: '_' :: 'm' :: 's' :: '"' :: ':' :: (natDigits t ++ (',' :: '"' :: 'n' :: 'o' :: 'w' :: '_' :: 'm' :: 's' :: '"' :: ':' :: (natDigits n ++ ['\x7d', '\x7d']))))))
    (JValue.num (fmt3Val lq))
    [("right", JValue.num (fmt3Val rq)),
     ("timeout_ms", JValue.num (t : ℚ)),
     ("now_ms", JValue.num (n : ℚ))]
    ['\x7d']
    (by decide)
    (by rw [skipWs_fmt3]
        exact parseValue_fmt3 f hf lq _ _ (by decide) (by decide)
          (by decide))
    (by rw [skipWs_cons _ (by decide)]
        exact fieldsLoop_right f (fl - 1) hf (by omega) rq t n)

theorem fieldsLoop_kind (f fl : Nat) (hf : f ≠ 0) (hfl : 5 ≤ fl)
    (lq rq : ℚ) (t n : Nat) :
    fieldsLoop (fun s2 => parseValue f s2) fl
      ('"' :: 'k' :: 'i' :: 'n' :: 'd' :: '"' :: ':' :: '"' :: 'i' :: 'm' :: 'm' :: 'e' :: 'd' :: 'i' :: 'a' :: 't' :: 'e' :: '"' :: ',' :: '"' :: 'l' :: 'e' :: 'f' :: 't' :: '"' :: ':' :: (fmt3 lq ++ (',' :: '"' :: 'r' :: 'i' :: 'g' :: 'h' :: 't' :: '"' :: ':' :: (fmt3 rq ++ (',' :: '"' :: 't' :: 'i' :: 'm' :: 'e' :: 'o' :: 'u' :: 't' :: '_' :: 'm' :: 's' :: '"' :: ':' :: (natDigits t ++ (',' :: '"' :: 'n' :: 'o' :: 'w' :: '_' :: 'm' :: 's' :: '"' :: ':' :: (natDigits n ++ ['\x7d', '\x7d'])))))))) =
      some (immediateInnerFields lq rq t n, ['\x7d']) := by
  exact fieldsLoop_step_comma f fl (by omega)
    ['k', 'i', 'n', 'd']
    ('"' :: (['i', 'm', 'm', 'e', 'd', 'i', 'a', 't', 'e'] ++ '"' ::
      (',' :: '"' :: 'l' :: 'e' :: 'f' :: 't' :: '"' :: ':' :: (fmt3 lq ++ (',' :: '"' :: 'r' :: 'i' :: 'g' :: 'h' :: 't' :: '"' :: ':' :: (fmt3 rq ++ (',' :: '"' :: 't' :: 'i' :: 'm' :: 'e' :: 'o' :: 'u' :: 't' :: '_' :: 'm' :: 's' :: '"' :: ':' :: (natDigits t ++ (',' :: '"' :: 'n' :: 'o' :: 'w' :: '_' :: 'm' :: 's' :: '"' :: ':' :: (natDigits n ++ ['\x7d', '\x7d']))))))))))
    ('"' :: 'l' :: 'e' :: 'f' :: 't' :: '"' :: ':' :: (fmt3 lq ++ (',' :: '"' :: 'r' :: 'i' :: 'g' :: 'h' :: 't' :: '"' :: ':' :: (fmt3 rq ++ (',' :: '"' :: 't' :: 'i' :: 'm' :: 'e' :: 'o' :: 'u' :: 't' :: '_' :: 'm' :: 's' :: '"' :: ':' :: (natDigits t ++ (',' :: '"' :: 'n' :: 'o' :: 'w' :: '_' :: 'm' :: 's' :: '"' :: ':' :: (natDigits n ++ ['\x7d', '\x7d']))))))))
    (JValue.str "immediate")
    [("left", JValue.num (fmt3Val lq)),
     ("right", JValue.num (fmt3Val rq)),
     ("timeout_ms", JValue.num (t : ℚ)),
     ("now_ms", JValue.num (n : ℚ))]
    ['\x7d']
    (by decide)
    (by rw [skipWs_cons _ (by decide)]
        exact parseValue_string f hf
          ['i', 'm', 'm', 'e', 'd', 'i', 'a', 't', 'e']
          (',' :: '"' :: 'l' :: 'e' :: 'f' :: 't' :: '"' :: ':' :: (fmt3 lq ++ (',' :: '"' :: 'r' :: 'i' :: 'g' :: 'h' :: 't' :: '"' :: ':' :: (fmt3 rq ++ (',' :: '"' :: 't' :: 'i' :: 'm' :: 'e' :: 'o' :: 'u' :: 't' :: '_' :: 'm' :: 's' :: '"' :: ':' :: (natDigits t ++ (',' :: '"' :: 'n' :: 'o' :: 'w' :: '_' :: 'm' :: 's' :: '"' :: ':' :: (natDigits n ++ ['\x7d', '\x7d'])))))))) (by decide))
    (by rw [skipWs_cons _ (by decide)]
        exact fieldsLoop_left f (fl - 1) hf (by omega) lq rq t n)

theorem parseValue_immediateObj (f : Nat) (hf : 2 ≤ f) (lq rq : ℚ)
    (t n : Nat) :
    parseValue f ('\x7b' :: immediateInnerText lq rq t n) =
      some (JValue.obj (immediateInnerFields lq rq t n), ['\x7d']) := by
  obtain ⟨g, rfl⟩ : ∃ g, f = g + 1 := ⟨f - 1, by omega⟩
  simp only [parseValue]
  rw [if_neg (by decide), if_neg (by decide), if_neg (by decide),
    if_neg (by decide), if_neg (by decide)]
  have e : ((('\x7b' : Char) = '\x7b')) = True := by simp
  simp only [e, if_true]
  have hsk : skipWs (immediateInnerText lq rq t n) =
      immediateInnerText lq rq t n := rfl
  rw [hsk]
  have hfl5 : 5 ≤ (immediateInnerText lq rq t n).length + 1 := by
    show 5 ≤ (('"' : Char) :: 'k' :: 'i' :: 'n' :: 'd' :: _).length + 1
    simp only [List.length_cons]
    omega
  rw [show (immediateInnerText lq rq t n) =
    ('"' :: 'k' :: 'i' :: 'n' :: 'd' :: '"' :: ':' ::
      '"' :: 'i' :: 'm' :: 'm' :: 'e' :: 'd' :: 'i' :: 'a' :: 't' ::
      'e' :: '"' :: ',' ::
      '"' :: 'l' :: 'e' :: 'f' :: 't' :: '"' :: ':' ::
      (fmt3 lq ++ (',' ::
        '"' :: 'r' :: 'i' :: 'g' :: 'h' :: 't' :: '"' :: ':' ::
        (fmt3 rq ++ (',' ::
          '"' :: 't' :: 'i' :: 'm' :: 'e' :: 'o' :: 'u' :: 't' :: '_' ::
          'm' :: 's' :: '"' :: ':' ::
          (natDigits t ++ (',' ::
            '"' :: 'n' :: 'o' :: 'w' :: '_' :: 'm' :: 's' :: '"' :: ':' ::
            (natDigits n ++ ['\x7d', '\x7d'])))))))) from rfl]
  show (match fieldsLoop (fun s2 => parseValue g s2)
      (('"' :: 'k' :: 'i' :: 'n' :: 'd' :: '\"' :: ':' ::
      '\"' :: 'i' :: 'm' :: 'm' :: 'e' :: 'd' :: 'i' :: 'a' :: 't' ::
      'e' :: '\"' :: ',' ::
      '\"' :: 'l' :: 'e' :: 'f' :: 't' :: '\"' :: ':' ::
      (fmt3 lq ++ (',' ::
        '\"' :: 'r' :: 'i' :: 'g' :: 'h' :: 't' :: '\"' :: ':' ::
        (fmt3 rq ++ (',' ::
          '\"' :: 't' :: 'i' :: 'm' :: 'e' :: 'o' :: 'u' :: 't' :: '_' ::
          'm' :: 's' :: '\"' :: ':' ::
          (natDigits t ++ (',' ::
            '\"' :: 'n' :: 'o' :: 'w' :: '_' :: 'm' :: 's' :: '\"' :: ':' ::
            (natDigits n ++ ['\x7d', '\x7d'])))))))).length + 1)
      ('"' :: 'k' :: 'i' :: 'n' :: 'd' :: '\"' :: ':' ::
      '\"' :: 'i' :: 'm' :: 'm' :: 'e' :: 'd' :: 'i' :: 'a' :: 't' ::
      'e' :: '\"' :: ',' ::
      '\"' :: 'l' :: 'e' :: 'f' :: 't' :: '\"' :: ':' ::
      (fmt3 lq ++ (',' ::
        '\"' :: 'r' :: 'i' :: 'g' :: 'h' :: 't' :: '\"' :: ':' ::
        (fmt3 rq ++ (',' ::
          '\"' :: 't' :: 'i' :: 'm' :: 'e' :: 'o' :: 'u' :: 't' :: '_' ::
          'm' :: 's' :: '\"' :: ':' ::
          (natDigits t ++ (',' ::
            '\"' :: 'n' :: 'o' :: 'w' :: '_' :: 'm' :: 's' :: '\"' :: ':' ::
            (natDigits n ++ ['\x7d', '\x7d'])))))))) with
    | some (fs, r) => some (JValue.obj fs, r)
    | none => none) =
      some (JValue.obj (immediateInnerFields lq rq t n), ['\x7d'])
  rw [fieldsLoop_kind g
      (('"' :: 'k' :: 'i' :: 'n' :: 'd' :: '\"' :: ':' ::
      '\"' :: 'i' :: 'm' :: 'm' :: 'e' :: 'd' :: 'i' :: 'a' :: 't' ::
      'e' :: '\"' :: ',' ::
      '\"' :: 'l' :: 'e' :: 'f' :: 't' :: '\"' :: ':' ::
      (fmt3 lq ++ (',' ::
        '\"' :: 'r' :: 'i' :: 'g' :: 'h' :: 't' :: '\"' :: ':' ::
        (fmt3 rq ++ (',' ::
          '\"' :: 't' :: 'i' :: 'm' :: 'e' :: 'o' :: 'u' :: 't' :: '_' ::
          'm' :: 's' :: '\"' :: ':' ::
          (natDigits t ++ (',' ::
            '\"' :: 'n' :: 'o' :: 'w' :: '_' :: 'm' :: 's' :: '\"' :: ':' ::
            (natDigits n ++ ['\x7d', '\x7d'])))))))).length + 1)
      (by omega) hfl5 lq rq t n]

theorem fieldsLoop_command (f fl : Nat) (hf : 2 ≤ f) (hfl : fl ≠ 0)
    (lq rq : ℚ) (t n : Nat) :
    fieldsLoop (fun s2 => parseValue f s2) fl
      ('"' :: (['c','o','m','m','a','n','d'] ++ '"' :: (':' ::
        ('\x7b' :: immediateInnerText lq rq t n)))) =
      some ([("command",
        JValue.obj (immediateInnerFields lq rq t n))], []) := by
  exact fieldsLoop_step_close f fl hfl
    ['c','o','m','m','a','n','d']
    ('\x7b' :: immediateInnerText lq rq t n)
    (JValue.obj (immediateInnerFields lq rq t n)) []
    (by decide)
    (by rw [skipWs_cons _ (by decide)]
        exact parseValue_immediateObj f hf lq rq t n)

theorem fieldsLoop_type (f fl : Nat) (hf : 2 ≤ f) (hfl : 2 ≤ fl)
    (lq rq : ℚ) (t n : Nat) :
    fieldsLoop (fun s2 => parseValue f s2) fl
      ('"' :: (['t','y','p','e'] ++ '"' :: (':' ::
      ('"' :: (['c','o','m','m','a','n','d'] ++ '"' :: (',' ::
      ('"' :: (['c','o','m','m','a','n','d'] ++ '"' :: (':' ::
        ('\x7b' :: immediateInnerText lq rq t n)))))))))) =
      some ([("type", JValue.str "command"),
        ("command", JValue.obj (immediateInnerFields lq rq t n))], []) := by
  exact fieldsLoop_step_comma f fl (by omega)
    ['t','y','p','e']
    ('"' :: (['c','o','m','m','a','n','d'] ++ '"' :: (',' ::
      ('"' :: (['c','o','m','m','a','n','d'] ++ '"' :: (':' ::
        ('\x7b' :: immediateInnerText lq rq t n)))))))
    ('"' :: (['c','o','m','m','a','n','d'] ++ '"' :: (':' ::
        ('\x7b' :: immediateInnerText lq rq t n))))
    (JValue.str "command")
    [("command", JValue.obj (immediateInnerFields lq rq t n))] []
    (by decide)
    (by rw [skipWs_cons _ (by decide)]
        exact parseValue_string f (by omega)
          ['c','o','m','m','a','n','d']
          (',' :: ('"' :: (['c','o','m','m','a','n','d'] ++ '"' :: (':' ::
        ('\x7b' :: immediateInnerText lq rq t n)))))
          (by decide))
    (by rw [skipWs_cons _ (by decide)]
        exact fieldsLoop_command f (fl - 1) hf (by omega) lq rq t n)

theorem parseValue_encDoc (f : Nat) (hf : 3 ≤ f) (lq rq : ℚ)
    (t n : Nat) :
    parseValue f ('\x7b' ::
      ('"' :: (['t','y','p','e'] ++ '"' :: (':' ::
      ('"' :: (['c','o','m','m','a','n','d'] ++ '"' :: (',' ::
      ('"' :: (['c','o','m','m','a','n','d'] ++ '"' :: (':' ::
        ('\x7b' :: immediateInnerText lq rq t n))))))))))) =
      some (JValue.obj [("type", JValue.str "command"),
        ("command", JValue.obj (immediateInnerFields lq rq t n))], []) := by
  obtain ⟨g, rfl⟩ : ∃ g, f = g + 1 := ⟨f - 1, by omega⟩
  simp only [parseValue]
  rw [if_neg (by decide), if_neg (by decide), if_neg (by decide),
    if_neg (by decide), if_neg (by decide)]
  have e : ((('\x7b' : Char) = '\x7b')) = True := by simp
  simp only [e, if_true]
  have hsk : skipWs
      ('"' :: (['t','y','p','e'] ++ '"' :: (':' ::
      ('"' :: (['c','o','m','m','a','n','d'] ++ '"' :: (',' ::
      ('"' :: (['c','o','m','m','a','n','d'] ++ '"' :: (':' ::
        ('\x7b' :: immediateInnerText lq rq t n)))))))))) =
      ('"' :: (['t','y','p','e'] ++ '"' :: (':' ::
      ('"' :: (['c','o','m','m','a','n','d'] ++ '"' :: (',' ::
      ('"' :: (['c','o','m','m','a','n','d'] ++ '"' :: (':' ::
        ('\x7b' :: immediateInnerText lq rq t n)))))))))) :=
    skipWs_cons _ (by decide)
  rw [hsk]
  show (match fieldsLoop (fun s2 => parseValue g s2)
      (('"' :: (['t','y','p','e'] ++ '"' :: (':' ::
      ('"' :: (['c','o','m','m','a','n','d'] ++ '"' :: (',' ::
      ('"' :: (['c','o','m','m','a','n','d'] ++ '"' :: (':' ::
        ('\x7b' :: immediateInnerText lq rq t n)))))))))).length + 1)
      ('"' :: (['t','y','p','e'] ++ '"' :: (':' ::
      ('"' :: (['c','o','m','m','a','n','d'] ++ '"' :: (',' ::
      ('"' :: (['c','o','m','m','a','n','d'] ++ '"' :: (':' ::
        ('\x7b' :: immediateInnerText lq rq t n)))))))))) with
    | some (fs, r) => some (JValue.obj fs, r)
    | none => none) =
      some (JValue.obj [("type", JValue.str "command"),
        ("command", JValue.obj (immediateInnerFields lq rq t n))], [])
  rw [fieldsLoop_type g
      (('"' :: (['t','y','p','e'] ++ '"' :: (':' ::
      ('"' :: (['c','o','m','m','a','n','d'] ++ '"' :: (',' ::
      ('"' :: (['c','o','m','m','a','n','d'] ++ '"' :: (':' ::
        ('\x7b' :: immediateInnerText lq rq t n)))))))))).length + 1)
      (by omega) (by simp only [List.length_cons]; omega) lq rq t n]

theorem cJSON_Parse_enc (lq rq : ℚ) (t n : Nat) :
    cJSON_Parse (protocol_generate_immediate_command lq rq t n) =
      some (JValue.obj [("type", JValue.str "command"),
        ("command", JValue.obj (immediateInnerFields lq rq t n))]) := by
  have henc : protocol_generate_immediate_command lq rq t n =
      '\x7b' ::
        ('"' :: (['t','y','p','e'] ++ '"' :: (':' ::
      ('"' :: (['c','o','m','m','a','n','d'] ++ '"' :: (',' ::
      ('"' :: (['c','o','m','m','a','n','d'] ++ '"' :: (':' ::
        ('\x7b' :: immediateInnerText lq rq t n)))))))))) := rfl
  unfold cJSON_Parse
  rw [henc]
  have hbom : skip_utf8_bom ('\x7b' ::
      ('"' :: (['t','y','p','e'] ++ '"' :: (':' ::
      ('"' :: (['c','o','m','m','a','n','d'] ++ '"' :: (',' ::
      ('"' :: (['c','o','m','m','a','n','d'] ++ '"' :: (':' ::
        ('\x7b' :: immediateInnerText lq rq t n))))))))))) =
      '\x7b' ::
        ('"' :: (['t','y','p','e'] ++ '"' :: (':' ::
      ('"' :: (['c','o','m','m','a','n','d'] ++ '"' :: (',' ::
      ('"' :: (['c','o','m','m','a','n','d'] ++ '"' :: (':' ::
        ('\x7b' :: immediateInnerText lq rq t n)))))))))) := rfl
  rw [hbom]
  rw [skipWs_cons _ (by decide)]
  rw [parseValue_encDoc parseFuel (by decide) lq rq t n]

theorem takeWhile_of_all {p : Char → Bool} :
    ∀ l : List Char, (∀ c ∈ l, p c = true) → l.takeWhile p = l := by
  intro l
  induction l with
  | nil => intro _; rfl
  | cons c cs ih =>
    intro h
    have hc : p c = true := h c (by simp)
    simp [List.takeWhile_cons, hc, ih fun d hd => h d (by simp [hd])]

theorem ne_nul_of_isDig {c : Char} (h : isDig c = true) :
    c ≠ Char.ofNat 0 := by
  intro he
  subst he
  exact absurd h (by decide)

theorem fmt3_ne_nul (q : ℚ) : ∀ c ∈ fmt3 q, c ≠ Char.ofNat 0 := by
  intro c hc
  unfold fmt3 at hc
  rcases List.mem_append.mp hc with h1 | h2
  · split at h1
    · simp at h1
      subst h1
      decide
    · simp at h1
  · rcases List.mem_append.mp h2 with h3 | h4
    · exact ne_nul_of_isDig (natDigits_all_dig _ _ h3)
    · rcases List.mem_cons.mp h4 with h5 | h6
      · subst h5
        decide
      · exact ne_nul_of_isDig
          (pad3_all_dig _ (Nat.mod_lt _ (by norm_num)) c h6)

theorem natDigits_ne_nul (n : Nat) : ∀ c ∈ natDigits n, c ≠ Char.ofNat 0 :=
  fun c hc => ne_nul_of_isDig (natDigits_all_dig n c hc)

theorem prepBuffer_enc (lq rq : ℚ) (t n : Nat) :
    prepBuffer (protocol_generate_immediate_command lq rq t n)
      (protocol_generate_immediate_command lq rq t n).length =
      protocol_generate_immediate_command lq rq t n := by
  unfold prepBuffer
  rw [List.take_length]
  apply takeWhile_of_all
  intro c hc
  simp only [ne_eq, decide_not, Bool.not_eq_true',
    decide_eq_false_iff_not]
  show c ≠ Char.ofNat 0
  unfold protocol_generate_immediate_command at hc
  have hA : ∀ d ∈ ("\x7b\"type\":\"command\",\"command\":\x7b\"kind\":\"immediate\",\"left\":".data : List Char),
      d ≠ Char.ofNat 0 := by decide
  have hB : ∀ d ∈ (",\"right\":".data : List Char), d ≠ Char.ofNat 0 := by
    decide
  have hC : ∀ d ∈ (",\"timeout_ms\":".data : List Char),
      d ≠ Char.ofNat 0 := by decide
  have hD : ∀ d ∈ (",\"now_ms\":".data : List Char), d ≠ Char.ofNat 0 := by
    decide
  have hE : ∀ d ∈ ("\x7d\x7d".data : List Char), d ≠ Char.ofNat 0 := by
    decide
  rcases List.mem_append.mp hc with h | h
  · exact hA c h
  rcases List.mem_append.mp h with h | h
  · exact fmt3_ne_nul lq c h
  rcases List.mem_append.mp h with h | h
  · exact hB c h
  rcases List.mem_append.mp h with h | h
  · exact fmt3_ne_nul rq c h
  rcases List.mem_append.mp h with h | h
  · exact hC c h
  rcases List.mem_append.mp h with h | h
  · exact natDigits_ne_nul t c h
  rcases List.mem_append.mp h with h | h
  · exact hD c h
  rcases List.mem_append.mp h with h | h
  · exact natDigits_ne_nul n c h
  · exact hE c h

theorem u32OfQ_natCast (t : Nat) (ht : t < 2 ^ 32) : u32OfQ (t : ℚ) = t := by
  unfold u32OfQ truncQ
  simp only [Rat.num_natCast, Rat.den_natCast, Nat.cast_one, Int.tdiv_one]
  omega

theorem roundQ_close (x : ℚ) : |(roundQ x : ℚ) - x| ≤ 1 / 2 := by
  unfold roundQ
  have h1 := Int.floor_le (x + 1 / 2)
  have h2 := Int.lt_floor_add_one (x + 1 / 2)
  rw [abs_le]
  constructor <;> linarith

theorem fmt3Val_close (q : ℚ) : |fmt3Val q - q| ≤ 1 / 1000 := by
  have h := roundQ_close (q * 1000)
  unfold fmt3Val
  rw [Rat.mkRat_eq_div]
  rw [abs_le] at h ⊢
  push_cast
  constructor <;> linarith [h.1, h.2]

theorem routeMessage_enc (lq rq : ℚ) (t n : Nat) (hs : Handlers)
    (clock : Nat) :
    routeMessage (JValue.obj [("type", JValue.str "command"),
      ("command", JValue.obj (immediateInnerFields lq rq t n))]) hs
      clock =
    (Outcome.handledOk,
      if hs.immediate
        then [InvEvent.immediate (fmt3Val lq) (fmt3Val rq)
          (u32OfQ (t : ℚ)) clock]
        else []) := by
  simp [routeMessage, handle_command_type, handle_single_command_object,
    handle_immediate_command, cJSON_GetObjectItemCaseSensitive,
    lookupField, immediateInnerFields, cJSON_IsString, cJSON_IsNumber,
    strValue, numValue]

/-- C3: encode-then-decode round trip for the Immediate command.
Feeding the wire text produced by `protocol_generate_immediate_command`
back to the dispatch entry point (with the immediate capability bound)
invokes `immediate` exactly once, with `timeout_ms` preserved exactly,
`now_ms` taken from the engine clock argument, and left/right recovered
to within `1/1000` (the rounding error of the 3-decimal rendering). -/
theorem c3_encode_decode_roundtrip (left right : ℚ)
    (timeout_ms now_ms clock : Nat) (hs : Handlers)
    (him : hs.immediate = true) (ht : timeout_ms < 2 ^ 32) :
    ∃ lv rv : ℚ,
      protocol_handle_command_json
        (some (protocol_generate_immediate_command left right
          timeout_ms now_ms))
        (protocol_generate_immediate_command left right
          timeout_ms now_ms).length hs clock =
      (Outcome.handledOk,
        [InvEvent.immediate lv rv timeout_ms clock]) ∧
      |lv - left| ≤ 1 / 1000 ∧ |rv - right| ≤ 1 / 1000 := by
  refine ⟨fmt3Val left, fmt3Val right, ?_, fmt3Val_close left,
    fmt3Val_close right⟩
  have hlen : ¬ (protocol_generate_immediate_command left right
      timeout_ms now_ms).length = 0 := by
    rw [show protocol_generate_immediate_command left right
        timeout_ms now_ms =
      '\x7b' :: ('"' :: (['t','y','p','e'] ++ '"' :: (':' ::
        ('"' :: (['c','o','m','m','a','n','d'] ++ '"' :: (',' ::
        ('"' :: (['c','o','m','m','a','n','d'] ++ '"' :: (':' ::
          ('\x7b' :: immediateInnerText left right
            timeout_ms now_ms)))))))))) from rfl]
    simp
  simp only [protocol_handle_command_json]
  rw [if_neg hlen]
  rw [prepBuffer_enc left right timeout_ms now_ms]
  rw [cJSON_Parse_enc left right timeout_ms now_ms]
  show routeMessage (JValue.obj [("type", JValue.str "command"),
    ("command", JValue.obj (immediateInnerFields left right
      timeout_ms now_ms))]) hs clock =
    (Outcome.handledOk, [InvEvent.immediate (fmt3Val left)
      (fmt3Val right) timeout_ms clock])
  rw [routeMessage_enc left right timeout_ms now_ms hs clock]
  rw [u32OfQ_natCast timeout_ms ht, him]
  simp

theorem c3_encode_decode_roundtrip_witness :
    allBound.immediate = true ∧ (200 : Nat) < 2 ^ 32 ∧
    (∃ lv rv : ℚ,
      protocol_handle_command_json
        (some (protocol_generate_immediate_command (-1/10) (3/10)
          200 123456))
        (protocol_generate_immediate_command (-1/10) (3/10)
          200 123456).length allBound 999 =
      (Outcome.handledOk, [InvEvent.immediate lv rv 200 999]) ∧
      |lv - (-1/10)| ≤ 1 / 1000 ∧ |rv - 3/10| ≤ 1 / 1000) :=
  ⟨rfl, by decide,
    c3_encode_decode_roundtrip (-1/10) (3/10) 200 123456 999 allBound
      rfl (by decide)⟩
